import Mathlib

/-!
# Verification of the cartservice-ts cart mutation-and-persistence subsystem

Shallow embedding of `src/cartservice-ts`:
* the cart data model (`src/storage/cart-store.ts`),
* the in-memory backend (`src/storage/memory-store.ts`),
* the Redis backend with its protobuf codec (`src/storage/redis-store.ts`),
* the gRPC request handlers (`src/handlers/cart-handler.ts`) and the health
  handler (`src/handlers/health-handler.ts`).

Conventions of the embedding:
* JavaScript `Map` objects and the Redis keyspace are modelled as association
  lists in insertion order (`Map.set` on an existing key overwrites in place).
* `async` methods are modelled as pure state-passing functions; `throw` is
  modelled with `Except String` carrying the JS `Error` message.
* The ioredis client is an external collaborator; it is modelled as primitive
  operations on a `RedisState` that either act on the keyspace or raise the
  client's connection error when the backend is unreachable.
* gRPC `int32` request fields are modelled as `Int` (the wire type only
  delivers integers); JS string falsiness (`!s`) is the test `s = ""`.
-/

/-- One product/quantity pair within a cart (`CartItem` in `cart-store.ts`). -/
structure CartItem where
  productId : String
  quantity : Int
deriving DecidableEq, Repr

/-- A user's shopping cart (`Cart` in `cart-store.ts`). -/
structure Cart where
  userId : String
  items : List CartItem
deriving DecidableEq, Repr

/-! ## Association lists (model of JS `Map` and of the Redis keyspace) -/

/-- Model of `Map.get` / Redis `GET`: first binding of the key, if any. -/
def lookupAssoc {α : Type} : List (String × α) → String → Option α
  | [], _ => none
  | (k', v) :: t, k => if k' = k then some v else lookupAssoc t k

/-- Model of `Map.set` / Redis `SET`: overwrite the existing binding in place, else
append a new binding (JS `Map` preserves insertion order). -/
def setAssoc {α : Type} : List (String × α) → String → α → List (String × α)
  | [], k, v => [(k, v)]
  | (k', v') :: t, k, v => if k' = k then (k, v) :: t else (k', v') :: setAssoc t k v

theorem lookupAssoc_setAssoc_self {α : Type} (l : List (String × α)) (k : String) (v : α) :
    lookupAssoc (setAssoc l k v) k = some v := by
  induction l with
  | nil => simp [setAssoc, lookupAssoc]
  | cons hd t ih =>
    obtain ⟨k', v'⟩ := hd
    by_cases h : k' = k <;> simp [setAssoc, lookupAssoc, h, ih]

theorem lookupAssoc_setAssoc_ne {α : Type} (l : List (String × α)) (k k' : String) (v : α)
    (h : k' ≠ k) : lookupAssoc (setAssoc l k v) k' = lookupAssoc l k' := by
  induction l with
  | nil => simp [setAssoc, lookupAssoc, Ne.symm h]
  | cons hd t ih =>
    obtain ⟨k₀, v₀⟩ := hd
    by_cases h₀ : k₀ = k
    · subst h₀
      simp [setAssoc, lookupAssoc, Ne.symm h]
    · simp only [setAssoc, if_neg h₀, lookupAssoc]
      by_cases h₁ : k₀ = k' <;> simp [h₁, ih]

theorem setAssoc_setAssoc_self {α : Type} (l : List (String × α)) (k : String) (v w : α) :
    setAssoc (setAssoc l k v) k w = setAssoc l k w := by
  induction l with
  | nil => simp [setAssoc]
  | cons hd t ih =>
    obtain ⟨k₀, v₀⟩ := hd
    by_cases h₀ : k₀ = k <;> simp [setAssoc, h₀, ih]

/-! ## The merge algorithm (shared by both backends)

`addItem` in both `memory-store.ts` and `redis-store.ts` does
`cart.items.find(item => item.productId === productId)`; if found it mutates
that item's quantity in place, otherwise it pushes a new item. -/

/-- Increment the quantity of the first item matching `productId`
(the in-place mutation of the object returned by `Array.find`). -/
def incFirst : List CartItem → String → Int → List CartItem
  | [], _, _ => []
  | it :: t, p, q =>
    if it.productId = p then { it with quantity := it.quantity + q } :: t
    else it :: incFirst t p q

/-- The merge step of `addItem`: increment the first matching item, or push
`{productId, quantity}` at the end. -/
def addToItems (items : List CartItem) (productId : String) (quantity : Int) : List CartItem :=
  match items.find? (fun it => it.productId == productId) with
  | some _ => incFirst items productId quantity
  | none => items ++ [⟨productId, quantity⟩]

/-- Number of entries in `items` for a given product id. -/
def productCount (items : List CartItem) (p : String) : Nat :=
  (items.filter (fun it => it.productId == p)).length

/-- Total quantity recorded in `items` for a given product id. -/
def productQty (items : List CartItem) (p : String) : Int :=
  ((items.filter (fun it => it.productId == p)).map (fun it => it.quantity)).sum

/-- The §3 invariant: at most one `CartItem` per distinct `productId`. -/
def NodupProducts (items : List CartItem) : Prop :=
  (items.map (fun it => it.productId)).Nodup

theorem incFirst_map_productId (items : List CartItem) (p : String) (q : Int) :
    (incFirst items p q).map (fun it => it.productId) = items.map (fun it => it.productId) := by
  induction items with
  | nil => rfl
  | cons it t ih =>
    by_cases h : it.productId = p <;> simp [incFirst, h, ih]

theorem incFirst_filter_ne (items : List CartItem) (p : String) (q : Int) :
    (incFirst items p q).filter (fun it => !(it.productId == p)) =
      items.filter (fun it => !(it.productId == p)) := by
  induction items with
  | nil => rfl
  | cons it t ih =>
    by_cases h : it.productId = p <;> simp [incFirst, h, ih]

theorem incFirst_productCount (items : List CartItem) (p : String) (q : Int) :
    productCount (incFirst items p q) p = productCount items p := by
  induction items with
  | nil => rfl
  | cons it t ih =>
    obtain ⟨pid, qty⟩ := it
    by_cases h : pid = p
    · subst h
      simp [incFirst, productCount, List.filter_cons]
    · simp only [incFirst, if_neg h, productCount, List.filter_cons] at ih ⊢
      simp only [show (({ productId := pid, quantity := qty } : CartItem).productId == p) = false by
        simp [h]]
      exact ih

theorem incFirst_productQty (items : List CartItem) (p : String) (q : Int)
    (h : productCount items p ≠ 0) :
    productQty (incFirst items p q) p = productQty items p + q := by
  induction items with
  | nil => simp [productCount] at h
  | cons it t ih =>
    obtain ⟨pid, qty⟩ := it
    by_cases hit : pid = p
    · subst hit
      simp [incFirst, productQty, List.filter_cons]
      ring
    · have hpe : (({ productId := pid, quantity := qty } : CartItem).productId == p) = false := by
        simp [hit]
      simp only [productCount, List.filter_cons, hpe, Bool.false_eq_true, if_false] at h
      simp only [incFirst, if_neg hit, productQty, List.filter_cons, hpe, Bool.false_eq_true,
        if_false] at ih ⊢
      simp only [productQty, productCount] at ih
      rw [ih h]

theorem productCount_append (a b : List CartItem) (p : String) :
    productCount (a ++ b) p = productCount a p + productCount b p := by
  simp [productCount, List.filter_append]

theorem productQty_append (a b : List CartItem) (p : String) :
    productQty (a ++ b) p = productQty a p + productQty b p := by
  simp [productQty, List.filter_append]

theorem productCount_singleton_self (p : String) (q : Int) :
    productCount [⟨p, q⟩] p = 1 := by
  simp [productCount, List.filter]

theorem productQty_singleton_self (p : String) (q : Int) :
    productQty [⟨p, q⟩] p = q := by
  simp [productQty, List.filter]

theorem productQty_of_count_zero (items : List CartItem) (p : String)
    (h : productCount items p = 0) : productQty items p = 0 := by
  simp only [productCount, List.length_eq_zero] at h
  simp [productQty, h]

theorem find?_eq_none_of_count_zero (items : List CartItem) (p : String)
    (h : productCount items p = 0) :
    items.find? (fun it => it.productId == p) = none := by
  simp only [productCount, List.length_eq_zero, List.filter_eq_nil_iff] at h
  exact List.find?_eq_none.mpr h

theorem addToItems_of_absent (items : List CartItem) (p : String) (q : Int)
    (h : productCount items p = 0) :
    addToItems items p q = items ++ [⟨p, q⟩] := by
  simp [addToItems, find?_eq_none_of_count_zero items p h]

/-- After merging into a cart with no entry for `p`, there is exactly one entry
for `p` and its quantity is `q`. -/
theorem addToItems_absent_count_qty (items : List CartItem) (p : String) (q : Int)
    (h : productCount items p = 0) :
    productCount (addToItems items p q) p = 1 ∧ productQty (addToItems items p q) p = q := by
  rw [addToItems_of_absent items p q h]
  constructor
  · rw [productCount_append, h, productCount_singleton_self]
  · rw [productQty_append, productQty_of_count_zero items p h, productQty_singleton_self]
    ring

theorem find?_isSome_of_count_ne_zero (items : List CartItem) (p : String)
    (h : productCount items p ≠ 0) :
    (items.find? (fun it => it.productId == p)).isSome := by
  rcases hf : items.find? (fun it => it.productId == p) with _ | it
  · exfalso
    apply h
    simp only [productCount, List.length_eq_zero, List.filter_eq_nil_iff]
    exact List.find?_eq_none.mp hf
  · rw [hf]
    rfl

/-- Merging into a cart that already has an entry for `p` keeps the entry count
and adds `q` to the total quantity for `p`. -/
theorem addToItems_present_count_qty (items : List CartItem) (p : String) (q : Int)
    (h : productCount items p ≠ 0) :
    productCount (addToItems items p q) p = productCount items p ∧
      productQty (addToItems items p q) p = productQty items p + q := by
  have hs := find?_isSome_of_count_ne_zero items p h
  rcases hf : items.find? (fun it => it.productId == p) with _ | it
  · rw [hf] at hs; simp at hs
  · refine ⟨?_, ?_⟩
    · rw [addToItems, hf, incFirst_productCount]
    · rw [addToItems, hf, incFirst_productQty items p q h]

theorem addToItems_filter_ne (items : List CartItem) (p : String) (q : Int) :
    (addToItems items p q).filter (fun it => !(it.productId == p)) =
      items.filter (fun it => !(it.productId == p)) := by
  rcases hf : items.find? (fun it => it.productId == p) with _ | it
  · simp [addToItems, hf, List.filter_append, List.filter]
  · rw [addToItems, hf, incFirst_filter_ne]

theorem nodupProducts_addToItems {items : List CartItem} (h : NodupProducts items)
    (p : String) (q : Int) : NodupProducts (addToItems items p q) := by
  rcases hf : items.find? (fun it => it.productId == p) with _ | it
  · rw [addToItems, hf]
    simp only [NodupProducts, List.map_append, List.map] at h ⊢
    rw [List.nodup_append]
    refine ⟨h, List.nodup_singleton p, ?_⟩
    intro x hx
    simp only [List.mem_map] at hx
    obtain ⟨it, hits, rfl⟩ := hx
    have := List.find?_eq_none.mp hf it hits
    simp only [beq_iff_eq] at this
    simp [this]
  · rw [addToItems, hf]
    unfold NodupProducts
    rw [incFirst_map_productId]
    exact h

/-! ## Memory store (`memory-store.ts`) -/

/-- The `MemoryStore`'s private `carts : Map<string, Cart>`. -/
def MemStore : Type := List (String × Cart)

/-- Embedding of `MemoryStore.addItem`: read the cart (or a fresh empty one), merge, write
the whole cart back. -/
def MemoryStore.addItem (s : MemStore) (userId productId : String) (quantity : Int) : MemStore :=
  let cart := (lookupAssoc s userId).getD ⟨userId, []⟩
  let cart' := { cart with items := addToItems cart.items productId quantity }
  setAssoc s userId cart'

/-- Embedding of `MemoryStore.getCart`: return the stored cart, or `{userId, items: []}`
when none exists; the map is only read (`Map.get`), never written. -/
def MemoryStore.getCart (s : MemStore) (userId : String) : Cart × MemStore :=
  match lookupAssoc s userId with
  | some cart => (cart, s)
  | none => (⟨userId, []⟩, s)

/-- Embedding of `MemoryStore.emptyCart`: unconditionally store an explicit empty cart. -/
def MemoryStore.emptyCart (s : MemStore) (userId : String) : MemStore :=
  setAssoc s userId ⟨userId, []⟩

/-- Embedding of `MemoryStore.ping`: always true, no external dependency. -/
def MemoryStore.ping (_ : MemStore) : Bool := true

/-! ## Protobuf wire primitives

`redis-store.ts` serializes carts with protobufjs against `proto/demo.proto`
(the proto file itself is not under `src/`; §6 of the design pins the schema).
These are the base-128 varint and int32 encodings of the protobuf wire format
as produced and consumed by protobufjs `Writer`/`Reader`. -/

/-- Base-128 varint encoding of a natural number (protobufjs `Writer#uint32`
/ `Writer#uint64`): little-endian 7-bit groups, high bit set on all but the
last byte. -/
def varintEncode (n : Nat) : List Nat :=
  if n < 128 then [n] else (n % 128 + 128) :: varintEncode (n / 128)
decreasing_by exact Nat.div_lt_self (by omega) (by omega)

/-- Base-128 varint decoding (protobufjs `Reader` varint read): returns the
value and the remaining bytes, or `none` on truncated input. -/
def varintDecode : List Nat → Option (Nat × List Nat)
  | [] => none
  | b :: rest =>
    if b < 128 then some (b, rest)
    else
      match varintDecode rest with
      | some (n, r) => some (b - 128 + 128 * n, r)
      | none => none

theorem varintDecode_encode (n : Nat) (rest : List Nat) :
    varintDecode (varintEncode n ++ rest) = some (n, rest) := by
  induction n using Nat.strong_induction_on with
  | _ n ih =>
    by_cases h : n < 128
    · rw [varintEncode, if_pos h]
      simp [varintDecode, h]
    · rw [varintEncode, if_neg h]
      have hmod : ¬ (n % 128 + 128 < 128) := by omega
      have hrec := ih (n / 128) (Nat.div_lt_self (by omega) (by omega))
      simp only [List.cons_append, varintDecode, if_neg hmod, List.append_eq, hrec]
      have : n % 128 + 128 - 128 + 128 * (n / 128) = n := by omega
      rw [this]

theorem varintDecode_length {l : List Nat} {n : Nat} {r : List Nat}
    (h : varintDecode l = some (n, r)) : r.length < l.length := by
  induction l generalizing n r with
  | nil => simp [varintDecode] at h
  | cons b rest ih =>
    by_cases hb : b < 128
    · simp only [varintDecode, if_pos hb, Option.some.injEq, Prod.mk.injEq] at h
      obtain ⟨-, rfl⟩ := h
      simp
    · simp only [varintDecode, if_neg hb] at h
      rcases hr : varintDecode rest with _ | ⟨m, r'⟩
      · rw [hr] at h; simp at h
      · rw [hr] at h
        simp only [Option.some.injEq, Prod.mk.injEq] at h
        obtain ⟨-, rfl⟩ := h
        have := ih hr
        simp only [List.length_cons]
        omega

/-- protobufjs `Writer#int32`: a negative value is written as the 10-byte
varint of its 64-bit two's-complement; a non-negative value is written as the
varint of `value >>> 0`, i.e. of `value mod 2^32`. -/
def int32Encode (q : Int) : List Nat :=
  if q < 0 then varintEncode (q + 2 ^ 64).toNat
  else varintEncode (q.toNat % 2 ^ 32)

/-- protobufjs `Reader#int32`: read a varint, keep the low 32 bits, interpret
them as a signed 32-bit integer. -/
def int32OfVarint (n : Nat) : Int :=
  if n % 2 ^ 32 < 2 ^ 31 then ((n % 2 ^ 32 : Nat) : Int)
  else ((n % 2 ^ 32 : Nat) : Int) - 2 ^ 32

/-- The value an `int32` field actually takes after an encode/decode cycle:
the argument reduced into `[-2^31, 2^31)` modulo `2^32`. -/
def wrap32 (q : Int) : Int :=
  if q % 2 ^ 32 < 2 ^ 31 then q % 2 ^ 32 else q % 2 ^ 32 - 2 ^ 32

theorem wrap32_range (q : Int) : -2 ^ 31 ≤ wrap32 q ∧ wrap32 q < 2 ^ 31 := by
  unfold wrap32
  have h1 : 0 ≤ q % 2 ^ 32 := Int.emod_nonneg q (by norm_num)
  have h2 : q % 2 ^ 32 < 2 ^ 32 := Int.emod_lt_of_pos q (by norm_num)
  by_cases h : q % 2 ^ 32 < 2 ^ 31 <;> simp [h] <;> omega

theorem wrap32_eq_self (q : Int) (h1 : -2 ^ 31 ≤ q) (h2 : q < 2 ^ 31) : wrap32 q = q := by
  unfold wrap32
  by_cases h0 : 0 ≤ q
  · have : q % 2 ^ 32 = q := Int.emod_eq_of_lt h0 (by omega)
    rw [this, if_pos (by omega)]
  · have : q % 2 ^ 32 = q + 2 ^ 32 := by omega
    rw [this, if_neg (by omega)]
    omega

theorem int32OfVarint_encode (q : Int) (h : -2 ^ 64 ≤ q) (rest : List Nat) :
    varintDecode (int32Encode q ++ rest) =
      some ((if q < 0 then (q + 2 ^ 64).toNat else q.toNat % 2 ^ 32), rest) ∧
    int32OfVarint (if q < 0 then (q + 2 ^ 64).toNat else q.toNat % 2 ^ 32) = wrap32 q := by
  constructor
  · unfold int32Encode
    by_cases hq : q < 0 <;> simp [hq, varintDecode_encode]
  · unfold int32OfVarint wrap32
    by_cases hq : q < 0
    · simp only [if_pos hq]
      have hnn : (0 : Int) ≤ q + 2 ^ 64 := by omega
      have htn : (((q + 2 ^ 64).toNat : Int)) = q + 2 ^ 64 := Int.toNat_of_nonneg hnn
      have hm : (((q + 2 ^ 64).toNat % 2 ^ 32 : Nat) : Int) = (q + 2 ^ 64) % 2 ^ 32 := by
        omega
      have he : (q + 2 ^ 64) % 2 ^ 32 = q % 2 ^ 32 := by omega
      rw [hm, he]
      by_cases hlt : q % 2 ^ 32 < 2 ^ 31
      · rw [if_pos (by omega), if_pos hlt]
      · rw [if_neg (by omega), if_neg hlt]
    · simp only [if_neg hq]
      have hm : ((q.toNat % 2 ^ 32 % 2 ^ 32 : Nat) : Int) = q % 2 ^ 32 := by
        have h1 : q.toNat % 2 ^ 32 % 2 ^ 32 = q.toNat % 2 ^ 32 := Nat.mod_mod_of_dvd _ dvd_rfl
        rw [h1]
        have h2 : ((q.toNat : Int)) = q := Int.toNat_of_nonneg (by omega)
        omega
      rw [hm]
      by_cases hlt : q % 2 ^ 32 < 2 ^ 31
      · rw [if_pos (by omega), if_pos hlt]
      · rw [if_neg (by omega), if_neg hlt]


/-! ## UTF-8 (protobuf `string` fields are length-delimited UTF-8 bytes) -/

/-- UTF-8 encoding of a Unicode scalar value (1–4 bytes). -/
def utf8EncodeNat (n : Nat) : List Nat :=
  if n < 0x80 then [n]
  else if n < 0x800 then [0xC0 + n / 0x40, 0x80 + n % 0x40]
  else if n < 0x10000 then [0xE0 + n / 0x1000, 0x80 + n / 0x40 % 0x40, 0x80 + n % 0x40]
  else [0xF0 + n / 0x40000, 0x80 + n / 0x1000 % 0x40, 0x80 + n / 0x40 % 0x40, 0x80 + n % 0x40]

/-- UTF-8 encoding of one character. -/
def utf8EncodeChar (c : Char) : List Nat := utf8EncodeNat c.toNat

/-- UTF-8 encoding of a string (what protobufjs writes for a `string` field). -/
def utf8Encode (s : String) : List Nat := s.data.flatMap utf8EncodeChar

/-- A UTF-8 continuation byte: `0x80 ≤ b < 0xC0`. -/
def contOk (b : Nat) : Bool := 0x80 ≤ b && b < 0xC0

/-- Decode a single UTF-8 character from the front of the byte list; `none` on
malformed input (truncation, stray continuation bytes, overlong forms,
surrogates, out-of-range values). -/
def utf8DecodeOne : List Nat → Option (Char × List Nat)
  | [] => none
  | b0 :: rest =>
    if b0 < 0x80 then some (Char.ofNat b0, rest)
    else if b0 < 0xC0 then none
    else if b0 < 0xE0 then
      match rest with
      | b1 :: r =>
        if contOk b1 then
          if (b0 - 0xC0) * 0x40 + (b1 - 0x80) < 0x80 then none
          else some (Char.ofNat ((b0 - 0xC0) * 0x40 + (b1 - 0x80)), r)
        else none
      | [] => none
    else if b0 < 0xF0 then
      match rest with
      | b1 :: b2 :: r =>
        if contOk b1 && contOk b2 then
          if (b0 - 0xE0) * 0x1000 + (b1 - 0x80) * 0x40 + (b2 - 0x80) < 0x800 then none
          else if 0xD800 ≤ (b0 - 0xE0) * 0x1000 + (b1 - 0x80) * 0x40 + (b2 - 0x80) &&
              (b0 - 0xE0) * 0x1000 + (b1 - 0x80) * 0x40 + (b2 - 0x80) < 0xE000 then none
          else some (Char.ofNat ((b0 - 0xE0) * 0x1000 + (b1 - 0x80) * 0x40 + (b2 - 0x80)), r)
        else none
      | _ => none
    else if b0 < 0xF8 then
      match rest with
      | b1 :: b2 :: b3 :: r =>
        if contOk b1 && contOk b2 && contOk b3 then
          if (b0 - 0xF0) * 0x40000 + (b1 - 0x80) * 0x1000 + (b2 - 0x80) * 0x40 +
              (b3 - 0x80) < 0x10000 then none
          else if 0x110000 ≤ (b0 - 0xF0) * 0x40000 + (b1 - 0x80) * 0x1000 +
              (b2 - 0x80) * 0x40 + (b3 - 0x80) then none
          else some (Char.ofNat ((b0 - 0xF0) * 0x40000 + (b1 - 0x80) * 0x1000 +
            (b2 - 0x80) * 0x40 + (b3 - 0x80)), r)
        else none
      | _ => none
    else none

theorem utf8DecodeOne_length {l : List Nat} {c : Char} {r : List Nat}
    (h : utf8DecodeOne l = some (c, r)) : r.length < l.length := by
  match l with
  | [] => simp [utf8DecodeOne] at h
  | b0 :: rest =>
    simp only [utf8DecodeOne] at h
    repeat' split at h
    all_goals try exact Option.noConfusion h
    all_goals
      simp only [Option.some.injEq, Prod.mk.injEq] at h
    all_goals
      obtain ⟨-, rfl⟩ := h
    all_goals
      simp only [List.length_cons]
    all_goals omega

/-- Full UTF-8 decode of a byte list (protobufjs `utf8.read` analogue, strict
about malformed sequences where protobufjs substitutes garbage). -/
def utf8DecodeChars (l : List Nat) : Option (List Char) :=
  if hl : l = [] then some []
  else
    match h : utf8DecodeOne l with
    | some (c, r) =>
      match utf8DecodeChars r with
      | some cs => some (c :: cs)
      | none => none
    | none => none
termination_by l.length
decreasing_by exact utf8DecodeOne_length h

/-- UTF-8 decoding to a string. -/
def utf8Decode (bytes : List Nat) : Option String :=
  match utf8DecodeChars bytes with
  | some cs => some (String.mk cs)
  | none => none

theorem utf8DecodeOne_encodeChar (c : Char) (rest : List Nat) :
    utf8DecodeOne (utf8EncodeChar c ++ rest) = some (c, rest) := by
  have hv : c.toNat < 55296 ∨ (57343 < c.toNat ∧ c.toNat < 1114112) := c.valid
  have hofn : Char.ofNat c.toNat = c := Char.ofNat_toNat c
  unfold utf8EncodeChar utf8EncodeNat
  by_cases h1 : c.toNat < 0x80
  · rw [if_pos h1]
    simp only [List.cons_append, List.nil_append, utf8DecodeOne, if_pos h1, hofn]
  · by_cases h2 : c.toNat < 0x800
    · rw [if_neg h1, if_pos h2]
      simp only [List.cons_append, List.nil_append, utf8DecodeOne]
      rw [if_neg (show ¬ (0xC0 + c.toNat / 0x40 < 0x80) by omega),
        if_neg (show ¬ (0xC0 + c.toNat / 0x40 < 0xC0) by omega),
        if_pos (show 0xC0 + c.toNat / 0x40 < 0xE0 by omega),
        show contOk (0x80 + c.toNat % 0x40) = true by
          simp only [contOk, Bool.and_eq_true, decide_eq_true_eq]
          omega]
      rw [if_pos rfl,
        if_neg (show ¬ ((0xC0 + c.toNat / 0x40 - 0xC0) * 0x40 +
          (0x80 + c.toNat % 0x40 - 0x80) < 0x80) by omega),
        show (0xC0 + c.toNat / 0x40 - 0xC0) * 0x40 + (0x80 + c.toNat % 0x40 - 0x80)
          = c.toNat by omega, hofn]
    · by_cases h3 : c.toNat < 0x10000
      · rw [if_neg h1, if_neg h2, if_pos h3]
        simp only [List.cons_append, List.nil_append, utf8DecodeOne]
        rw [if_neg (show ¬ (0xE0 + c.toNat / 0x1000 < 0x80) by omega),
          if_neg (show ¬ (0xE0 + c.toNat / 0x1000 < 0xC0) by omega),
          if_neg (show ¬ (0xE0 + c.toNat / 0x1000 < 0xE0) by omega),
          if_pos (show 0xE0 + c.toNat / 0x1000 < 0xF0 by omega),
          show contOk (0x80 + c.toNat / 0x40 % 0x40) = true by
            simp only [contOk, Bool.and_eq_true, decide_eq_true_eq]
            omega,
          show contOk (0x80 + c.toNat % 0x40) = true by
            simp only [contOk, Bool.and_eq_true, decide_eq_true_eq]
            omega]
        rw [Bool.and_self, if_pos rfl,
          if_neg (show ¬ ((0xE0 + c.toNat / 0x1000 - 0xE0) * 0x1000 +
            (0x80 + c.toNat / 0x40 % 0x40 - 0x80) * 0x40 +
            (0x80 + c.toNat % 0x40 - 0x80) < 0x800) by omega)]
        rw [show (0xE0 + c.toNat / 0x1000 - 0xE0) * 0x1000 +
            (0x80 + c.toNat / 0x40 % 0x40 - 0x80) * 0x40 + (0x80 + c.toNat % 0x40 - 0x80)
          = c.toNat by omega]
        rw [if_neg (show ¬ ((0xD800 ≤ c.toNat && c.toNat < 0xE000) = true) by
          simp only [Bool.and_eq_true, decide_eq_true_eq, not_and]
          omega)]
        rw [hofn]
      · rw [if_neg h1, if_neg h2, if_neg h3]
        simp only [List.cons_append, List.nil_append, utf8DecodeOne]
        rw [if_neg (show ¬ (0xF0 + c.toNat / 0x40000 < 0x80) by omega),
          if_neg (show ¬ (0xF0 + c.toNat / 0x40000 < 0xC0) by omega),
          if_neg (show ¬ (0xF0 + c.toNat / 0x40000 < 0xE0) by omega),
          if_neg (show ¬ (0xF0 + c.toNat / 0x40000 < 0xF0) by omega),
          if_pos (show 0xF0 + c.toNat / 0x40000 < 0xF8 by omega),
          show contOk (0x80 + c.toNat / 0x1000 % 0x40) = true by
            simp only [contOk, Bool.and_eq_true, decide_eq_true_eq]
            omega,
          show contOk (0x80 + c.toNat / 0x40 % 0x40) = true by
            simp only [contOk, Bool.and_eq_true, decide_eq_true_eq]
            omega,
          show contOk (0x80 + c.toNat % 0x40) = true by
            simp only [contOk, Bool.and_eq_true, decide_eq_true_eq]
            omega]
        rw [Bool.and_self, Bool.and_self, if_pos rfl,
          if_neg (show ¬ ((0xF0 + c.toNat / 0x40000 - 0xF0) * 0x40000 +
            (0x80 + c.toNat / 0x1000 % 0x40 - 0x80) * 0x1000 +
            (0x80 + c.toNat / 0x40 % 0x40 - 0x80) * 0x40 +
            (0x80 + c.toNat % 0x40 - 0x80) < 0x10000) by omega)]
        rw [show (0xF0 + c.toNat / 0x40000 - 0xF0) * 0x40000 +
            (0x80 + c.toNat / 0x1000 % 0x40 - 0x80) * 0x1000 +
            (0x80 + c.toNat / 0x40 % 0x40 - 0x80) * 0x40 + (0x80 + c.toNat % 0x40 - 0x80)
          = c.toNat by omega]
        rw [if_neg (show ¬ (0x110000 ≤ c.toNat) by omega), hofn]

theorem utf8EncodeChar_ne_nil (c : Char) : utf8EncodeChar c ≠ [] := by
  unfold utf8EncodeChar utf8EncodeNat
  split_ifs <;> simp

theorem utf8DecodeChars_encode (cs : List Char) :
    utf8DecodeChars (cs.flatMap utf8EncodeChar) = some cs := by
  induction cs with
  | nil =>
    rw [utf8DecodeChars]
    simp
  | cons c t ih =>
    rw [List.flatMap_cons, utf8DecodeChars]
    rw [dif_neg (by
      intro hcontra
      rcases List.append_eq_nil.mp hcontra with ⟨h1, -⟩
      exact utf8EncodeChar_ne_nil c h1)]
    split
    · next c' r heq =>
        rw [utf8DecodeOne_encodeChar] at heq
        cases heq
        rw [ih]
    · next heq =>
        rw [utf8DecodeOne_encodeChar] at heq
        exact Option.noConfusion heq

theorem utf8Decode_encode (s : String) : utf8Decode (utf8Encode s) = some s := by
  unfold utf8Decode utf8Encode
  rw [utf8DecodeChars_encode]

/-! ## Protobuf cart codec (`serializeCart` / `deserializeCart` in
`redis-store.ts`, via protobufjs)

Modelled from the spec: `proto/demo.proto` is not included under `src/`; §6 of
the design document fixes the message schema the codec must follow bit-for-bit:
`Cart { field 1: string userId; field 2: repeated CartItem items }` and
`CartItem { field 1: string productId; field 2: int32 quantity }`.
protobufjs writes every own property of the plain object handed to
`serializeCart` (presence-based, so empty strings are still written), emits
fields in declaration order, and on decode dispatches on the field number of
each tag, skipping unknown fields by wire type. -/

/-- protobufjs `Writer#string`: varint byte length, then UTF-8 bytes. -/
def encodeString (s : String) : List Nat :=
  varintEncode (utf8Encode s).length ++ utf8Encode s

/-- protobufjs `Reader#string`: varint length, bounds check, UTF-8 read. -/
def readString (bytes : List Nat) : Option (String × List Nat) :=
  match varintDecode bytes with
  | some (len, r) =>
    if len ≤ r.length then
      match utf8Decode (r.take len) with
      | some s => some (s, r.drop len)
      | none => none
    else none
  | none => none

/-- protobufjs `Reader#skipType`: skip one unknown field's payload by wire
type (0 varint, 1 eight bytes, 2 length-delimited, 5 four bytes; groups and
invalid wire types fail). -/
def skipField (wireType : Nat) (bytes : List Nat) : Option (List Nat) :=
  if wireType = 0 then
    match varintDecode bytes with
    | some (_, r) => some r
    | none => none
  else if wireType = 1 then
    if 8 ≤ bytes.length then some (bytes.drop 8) else none
  else if wireType = 2 then
    match varintDecode bytes with
    | some (len, r) => if len ≤ r.length then some (r.drop len) else none
    | none => none
  else if wireType = 5 then
    if 4 ≤ bytes.length then some (bytes.drop 4) else none
  else none

theorem readString_length {l : List Nat} {s : String} {r : List Nat}
    (h : readString l = some (s, r)) : r.length < l.length := by
  unfold readString at h
  split at h
  · next len r1 heq =>
      have hlt := varintDecode_length heq
      split at h
      · next hle =>
          split at h
          · next s' hu =>
              simp only [Option.some.injEq, Prod.mk.injEq] at h
              obtain ⟨-, rfl⟩ := h
              have hd : (r1.drop len).length ≤ r1.length := by simp [List.length_drop]
              omega
          · exact Option.noConfusion h
      · exact Option.noConfusion h
  · exact Option.noConfusion h

theorem skipField_length {w : Nat} {l r : List Nat}
    (h : skipField w l = some r) : r.length ≤ l.length := by
  unfold skipField at h
  split_ifs at h
  · split at h
    · next n r1 heq =>
        have := varintDecode_length heq
        simp only [Option.some.injEq] at h
        subst h
        omega
    · exact Option.noConfusion h
  · simp only [Option.some.injEq] at h
    subst h
    simp [List.length_drop]
  · split at h
    · next len r1 heq =>
        have := varintDecode_length heq
        split at h
        · next hle =>
            simp only [Option.some.injEq] at h
            subst h
            have hd : (r1.drop len).length ≤ r1.length := by simp [List.length_drop]
            omega
        · exact Option.noConfusion h
    · exact Option.noConfusion h
  · simp only [Option.some.injEq] at h
    subst h
    simp [List.length_drop]

/-- The decode loop of `hipstershop.CartItem` (protobufjs generated decoder):
read a tag, dispatch on the field number (1 ↦ `productId` as string, 2 ↦
`quantity` as int32), skip unknown fields, with proto3 defaults `""` and `0`. -/
def decodeItemLoop (bytes : List Nat) (pid : String) (q : Int) : Option CartItem :=
  if bytes = [] then some ⟨pid, q⟩
  else
    match hv : varintDecode bytes with
    | none => none
    | some (tag, r) =>
      if tag / 8 = 1 then
        match hs : readString r with
        | some (s, r') => decodeItemLoop r' s q
        | none => none
      else if tag / 8 = 2 then
        match hv2 : varintDecode r with
        | some (v, r') => decodeItemLoop r' pid (int32OfVarint v)
        | none => none
      else
        match hk : skipField (tag % 8) r with
        | some r' => decodeItemLoop r' pid q
        | none => none
termination_by bytes.length
decreasing_by
  · exact Nat.lt_trans (readString_length hs) (varintDecode_length hv)
  · exact Nat.lt_trans (varintDecode_length hv2) (varintDecode_length hv)
  · exact Nat.lt_of_le_of_lt (skipField_length hk) (varintDecode_length hv)

/-- Decoder for one `CartItem` submessage over an exact byte slice. -/
def decodeItemBytes (body : List Nat) : Option CartItem :=
  decodeItemLoop body "" 0

/-- The decode loop of `hipstershop.Cart` (protobufjs generated decoder):
field 1 ↦ `userId` as string, field 2 ↦ one more repeated `CartItem`
(length-delimited submessage), unknown fields skipped. -/
def decodeCartLoop (bytes : List Nat) (uid : String) (items : List CartItem) : Option Cart :=
  if bytes = [] then some ⟨uid, items⟩
  else
    match hv : varintDecode bytes with
    | none => none
    | some (tag, r) =>
      if tag / 8 = 1 then
        match hs : readString r with
        | some (s, r') => decodeCartLoop r' s items
        | none => none
      else if tag / 8 = 2 then
        match hv2 : varintDecode r with
        | some (len, r1) =>
          if hlen : len ≤ r1.length then
            match decodeItemBytes (r1.take len) with
            | some it => decodeCartLoop (r1.drop len) uid (items ++ [it])
            | none => none
          else none
        | none => none
      else
        match hk : skipField (tag % 8) r with
        | some r' => decodeCartLoop r' uid items
        | none => none
termination_by bytes.length
decreasing_by
  · exact Nat.lt_trans (readString_length hs) (varintDecode_length hv)
  · have h1 := varintDecode_length hv2
    have h2 := varintDecode_length hv
    have h3 : (r1.drop len).length ≤ r1.length := by simp [List.length_drop]
    omega
  · exact Nat.lt_of_le_of_lt (skipField_length hk) (varintDecode_length hv)

/-- Embedding of `RedisStore.deserializeCart`: protobufjs `Cart.decode` over the stored
buffer, with proto3 defaults (`userId || ''`, `items || []`). -/
def deserializeCart (bytes : List Nat) : Option Cart :=
  decodeCartLoop bytes "" []

/-- One encoded `CartItem` submessage body: tag `0x0A` (field 1, wire type 2),
productId, tag `0x10` (field 2, wire type 0), quantity. -/
def encodeItemBody (it : CartItem) : List Nat :=
  [0x0A] ++ encodeString it.productId ++ [0x10] ++ int32Encode it.quantity

/-- Embedding of `RedisStore.serializeCart`: protobufjs `Cart.encode` of the verified plain
object — tag `0x0A` (field 1, wire type 2) and userId (always present on the
object, even when empty), then each item as tag `0x12` (field 2, wire type 2)
with a length-prefixed submessage. -/
def serializeCart (c : Cart) : List Nat :=
  [0x0A] ++ encodeString c.userId ++
    c.items.flatMap
      (fun it => [0x12] ++ varintEncode (encodeItemBody it).length ++ encodeItemBody it)

/-! ### Codec roundtrip -/

/-- Items as they come back from an encode/decode cycle: product ids intact,
quantities reduced to int32. -/
def wrapItems (items : List CartItem) : List CartItem :=
  items.map fun it => ⟨it.productId, wrap32 it.quantity⟩

theorem readString_encodeString (s : String) (rest : List Nat) :
    readString (encodeString s ++ rest) = some (s, rest) := by
  unfold readString encodeString
  rw [List.append_assoc, varintDecode_encode]
  simp only
  rw [if_pos (show (utf8Encode s).length ≤ (utf8Encode s ++ rest).length by simp),
    List.take_left, List.drop_left, utf8Decode_encode]

theorem decodeItemLoop_field1 (s : String) (rest : List Nat) (pid : String) (q : Int) :
    decodeItemLoop (0x0A :: (encodeString s ++ rest)) pid q = decodeItemLoop rest s q := by
  have hv10 : varintDecode (0x0A :: (encodeString s ++ rest)) =
      some (0x0A, encodeString s ++ rest) := by
    simp [varintDecode]
  rw [decodeItemLoop.eq_def]
  rw [if_neg (by simp)]
  split
  · next heq =>
      rw [hv10] at heq
      exact Option.noConfusion heq
  · next tag r heq =>
      rw [hv10] at heq
      cases heq
      rw [if_pos (show (0x0A : Nat) / 8 = 1 by norm_num)]
      split
      · next s' r' heq2 =>
          rw [readString_encodeString] at heq2
          cases heq2
          rfl
      · next heq2 =>
          rw [readString_encodeString] at heq2
          exact Option.noConfusion heq2

theorem decodeItemLoop_field2 (qv : Int) (hq : -2 ^ 64 ≤ qv) (rest : List Nat)
    (pid : String) (q : Int) :
    decodeItemLoop (0x10 :: (int32Encode qv ++ rest)) pid q =
      decodeItemLoop rest pid (wrap32 qv) := by
  obtain ⟨hdec, hval⟩ := int32OfVarint_encode qv hq rest
  have hv16 : varintDecode (0x10 :: (int32Encode qv ++ rest)) =
      some (0x10, int32Encode qv ++ rest) := by
    simp [varintDecode]
  rw [decodeItemLoop.eq_def]
  rw [if_neg (by simp)]
  split
  · next heq =>
      rw [hv16] at heq
      exact Option.noConfusion heq
  · next tag r heq =>
      rw [hv16] at heq
      cases heq
      rw [if_neg (show ¬ ((0x10 : Nat) / 8 = 1) by norm_num),
        if_pos (show (0x10 : Nat) / 8 = 2 by norm_num)]
      split
      · next v r' heq2 =>
          rw [hdec] at heq2
          cases heq2
          rw [hval]
      · next heq2 =>
          rw [hdec] at heq2
          exact Option.noConfusion heq2

theorem decodeItemLoop_nil (pid : String) (q : Int) :
    decodeItemLoop [] pid q = some ⟨pid, q⟩ := by
  rw [decodeItemLoop.eq_def]
  simp

theorem decodeItemBytes_encodeItemBody (it : CartItem) (h : -2 ^ 64 ≤ it.quantity) :
    decodeItemBytes (encodeItemBody it) = some ⟨it.productId, wrap32 it.quantity⟩ := by
  unfold decodeItemBytes encodeItemBody
  simp only [List.append_assoc, List.cons_append, List.nil_append]
  rw [decodeItemLoop_field1]
  rw [show int32Encode it.quantity = int32Encode it.quantity ++ [] from
    (List.append_nil _).symm]
  rw [decodeItemLoop_field2 it.quantity h []]
  exact decodeItemLoop_nil _ _

theorem decodeCartLoop_field1 (s : String) (rest : List Nat) (uid : String)
    (items : List CartItem) :
    decodeCartLoop (0x0A :: (encodeString s ++ rest)) uid items =
      decodeCartLoop rest s items := by
  have hv10 : varintDecode (0x0A :: (encodeString s ++ rest)) =
      some (0x0A, encodeString s ++ rest) := by
    simp [varintDecode]
  rw [decodeCartLoop.eq_def]
  rw [if_neg (by simp)]
  split
  · next heq =>
      rw [hv10] at heq
      exact Option.noConfusion heq
  · next tag r heq =>
      rw [hv10] at heq
      cases heq
      rw [if_pos (show (0x0A : Nat) / 8 = 1 by norm_num)]
      split
      · next s' r' heq2 =>
          rw [readString_encodeString] at heq2
          cases heq2
          rfl
      · next heq2 =>
          rw [readString_encodeString] at heq2
          exact Option.noConfusion heq2

theorem decodeCartLoop_field2 (body rest : List Nat) (it : CartItem)
    (hbody : decodeItemBytes body = some it) (uid : String) (items : List CartItem) :
    decodeCartLoop (0x12 :: (varintEncode body.length ++ (body ++ rest))) uid items =
      decodeCartLoop rest uid (items ++ [it]) := by
  have hv18 : varintDecode (0x12 :: (varintEncode body.length ++ (body ++ rest))) =
      some (0x12, varintEncode body.length ++ (body ++ rest)) := by
    simp [varintDecode]
  rw [decodeCartLoop.eq_def]
  rw [if_neg (by simp)]
  split
  · next heq =>
      rw [hv18] at heq
      exact Option.noConfusion heq
  · next tag r heq =>
      rw [hv18] at heq
      cases heq
      rw [if_neg (show ¬ ((0x12 : Nat) / 8 = 1) by norm_num),
        if_pos (show (0x12 : Nat) / 8 = 2 by norm_num)]
      split
      · next len r1 heq2 =>
          rw [varintDecode_encode] at heq2
          cases heq2
          rw [dif_pos (show body.length ≤ (body ++ rest).length by simp)]
          rw [List.take_left, List.drop_left, hbody]
      · next heq2 =>
          rw [varintDecode_encode] at heq2
          exact Option.noConfusion heq2

theorem decodeCartLoop_nil (uid : String) (items : List CartItem) :
    decodeCartLoop [] uid items = some ⟨uid, items⟩ := by
  rw [decodeCartLoop.eq_def]
  simp

theorem decodeCartLoop_items (items : List CartItem) (uid : String) (acc : List CartItem)
    (h : ∀ it ∈ items, -2 ^ 64 ≤ it.quantity) :
    decodeCartLoop
      (items.flatMap fun it =>
        0x12 :: (varintEncode (encodeItemBody it).length ++ encodeItemBody it)) uid acc =
      some ⟨uid, acc ++ wrapItems items⟩ := by
  induction items generalizing acc with
  | nil => simp [wrapItems, decodeCartLoop_nil]
  | cons it t ih =>
      rw [List.flatMap_cons]
      have hb := decodeItemBytes_encodeItemBody it (h it (by simp))
      simp only [List.append_assoc, List.cons_append, List.nil_append]
      rw [decodeCartLoop_field2 _ _ _ hb]
      rw [ih _ (fun x hx => h x (by simp [hx]))]
      simp [wrapItems]

/-- Decoding an encoded cart recovers the cart exactly, except that each
quantity is reduced to its int32 value (the `int32` wire type of §6). -/
theorem deserializeCart_serializeCart (c : Cart)
    (h : ∀ it ∈ c.items, -2 ^ 64 ≤ it.quantity) :
    deserializeCart (serializeCart c) = some ⟨c.userId, wrapItems c.items⟩ := by
  unfold deserializeCart serializeCart
  simp only [List.append_assoc, List.cons_append, List.nil_append]
  rw [decodeCartLoop_field1]
  rw [decodeCartLoop_items _ _ _ h]
  simp

theorem wrapItems_eq_self (items : List CartItem)
    (h : ∀ it ∈ items, -2 ^ 31 ≤ it.quantity ∧ it.quantity < 2 ^ 31) :
    wrapItems items = items := by
  induction items with
  | nil => rfl
  | cons it t ih =>
      have hit := h it (by simp)
      simp only [wrapItems, List.map_cons] at ih ⊢
      rw [ih (fun x hx => h x (by simp [hx])), wrap32_eq_self it.quantity hit.1 hit.2]

/-- Exact codec roundtrip for carts whose quantities fit in int32. -/
theorem deserializeCart_serializeCart_of_inRange (c : Cart)
    (h : ∀ it ∈ c.items, -2 ^ 31 ≤ it.quantity ∧ it.quantity < 2 ^ 31) :
    deserializeCart (serializeCart c) = some c := by
  rw [deserializeCart_serializeCart c (fun it hit => by
    have := (h it hit).1
    omega)]
  rw [wrapItems_eq_self c.items h]

/-! ## Redis store (`redis-store.ts`)

The ioredis client is an external collaborator. Its model: a keyspace of
byte values plus a reachability flag; when the backend is unreachable every
command raises the client's connection error message (`connMsg`), and `PING`
returns whatever reply the backend sends (`pingReply`, `"PONG"` for a healthy
Redis). `GET` does not modify the keyspace; `SET` overwrites one key. -/

structure RedisState where
  data : List (String × List Nat)
  reachable : Bool
  connMsg : String
  pingReply : String
deriving DecidableEq, Repr

/-- ioredis `getBuffer`: value of the key (or nil), or a connection error. -/
def clientGetBuffer (s : RedisState) (k : String) :
    Except String (Option (List Nat)) × RedisState :=
  (if s.reachable then .ok (lookupAssoc s.data k) else .error s.connMsg, s)

/-- ioredis `set`: store the value under the key, or a connection error. -/
def clientSet (s : RedisState) (k : String) (v : List Nat) :
    Except String Unit × RedisState :=
  if s.reachable then (.ok (), { s with data := setAssoc s.data k v })
  else (.error s.connMsg, s)

/-- ioredis `ping`: the backend's reply, or a connection error. -/
def clientPing (s : RedisState) : Except String String × RedisState :=
  (if s.reachable then .ok s.pingReply else .error s.connMsg, s)

/-- The message of the error protobufjs raises when `decode` fails on the
stored buffer (e.g. `RangeError` on truncated input); only the fact that the
store wraps it in `Can't access cart storage: …` matters below. -/
def protoDecodeFailureMsg (_ : List Nat) : String := "index out of range"

/-- Embedding of `RedisStore.getCartKey`: key derivation `cart:` + userId. -/
def RedisStore.getCartKey (userId : String) : String := "cart:" ++ userId

/-- Embedding of `RedisStore.getCart`: `getBuffer` the key; a nil reply is an empty cart,
otherwise deserialize; any thrown error is wrapped as
`Can't access cart storage: <message>`. -/
def RedisStore.getCart (s : RedisState) (userId : String) :
    Except String Cart × RedisState :=
  match clientGetBuffer s (RedisStore.getCartKey userId) with
  | (.error m, s1) => (.error ("Can't access cart storage: " ++ m), s1)
  | (.ok none, s1) => (.ok ⟨userId, []⟩, s1)
  | (.ok (some data), s1) =>
    match deserializeCart data with
    | some cart => (.ok cart, s1)
    | none => (.error ("Can't access cart storage: " ++ protoDecodeFailureMsg data), s1)

/-- Embedding of `RedisStore.addItem`: read the cart via `getCart`, merge, serialize, `SET`
the whole record; any thrown error (including the already-wrapped `getCart`
error) is wrapped as `Can't access cart storage: <message>`. -/
def RedisStore.addItem (s : RedisState) (userId productId : String) (quantity : Int) :
    Except String Unit × RedisState :=
  match RedisStore.getCart s userId with
  | (.error m, s1) => (.error ("Can't access cart storage: " ++ m), s1)
  | (.ok cart, s1) =>
    match clientSet s1 (RedisStore.getCartKey userId)
      (serializeCart { cart with items := addToItems cart.items productId quantity }) with
    | (.ok _, s2) => (.ok (), s2)
    | (.error m, s2) => (.error ("Can't access cart storage: " ++ m), s2)

/-- Embedding of `RedisStore.emptyCart`: serialize `{userId, items: []}` and `SET` it
unconditionally (an explicit empty record, the key is not deleted). -/
def RedisStore.emptyCart (s : RedisState) (userId : String) :
    Except String Unit × RedisState :=
  match clientSet s (RedisStore.getCartKey userId) (serializeCart ⟨userId, []⟩) with
  | (.ok _, s1) => (.ok (), s1)
  | (.error m, s1) => (.error ("Can't access cart storage: " ++ m), s1)

/-- Embedding of `RedisStore.ping`: `PING` the client, `true` exactly on the reply
`'PONG'`; any exception is caught and converted to `false`. -/
def RedisStore.ping (s : RedisState) : Bool × RedisState :=
  match clientPing s with
  | (.ok r, s1) => (r == "PONG", s1)
  | (.error _, s1) => (false, s1)

/-! ## Request handlers (`cart-handler.ts`, `health-handler.ts`) -/

/-- The gRPC `AddItemRequest` (`user_id`, optional `item` payload with
`product_id` and int32 `quantity`). -/
structure ItemPayload where
  product_id : String
  quantity : Int
deriving DecidableEq, Repr

structure AddItemRequest where
  user_id : String
  item : Option ItemPayload
deriving DecidableEq, Repr

structure GetCartRequest where
  user_id : String
deriving DecidableEq, Repr

structure EmptyCartRequest where
  user_id : String
deriving DecidableEq, Repr

/-- Outcome of a handler call: the callback's first/second argument pair. -/
inductive GrpcReply (α : Type) where
  | ok (value : α)
  | invalidArgument (message : String)
  | failedPrecondition (message : String)
deriving DecidableEq, Repr

/-- gRPC status code of a reply (`grpc.status.*`). -/
def replyStatusCode {α : Type} : GrpcReply α → Nat
  | .ok _ => 0
  | .invalidArgument _ => 3
  | .failedPrecondition _ => 9

/-- One storage-layer invocation made by a handler. -/
inductive StorageCall where
  | add (userId productId : String) (quantity : Int)
  | get (userId : String)
  | empty (userId : String)
deriving DecidableEq, Repr

/-- The storage contract (`ICartStore`), polymorphic over the backend state. -/
structure StoreOps (σ : Type) where
  addItem : σ → String → String → Int → Except String Unit × σ
  getCart : σ → String → Except String Cart × σ
  emptyCart : σ → String → Except String Unit × σ
  ping : σ → Except String Bool × σ

/-- The memory backend as a `StoreOps` (its methods never throw). -/
def memOps : StoreOps MemStore where
  addItem s u p q := (.ok (), MemoryStore.addItem s u p q)
  getCart s u := (.ok (MemoryStore.getCart s u).1, (MemoryStore.getCart s u).2)
  emptyCart s u := (.ok (), MemoryStore.emptyCart s u)
  ping s := (.ok (MemoryStore.ping s), s)

/-- The Redis backend as a `StoreOps`. -/
def redisOps : StoreOps RedisState where
  addItem s u p q := RedisStore.addItem s u p q
  getCart s u := RedisStore.getCart s u
  emptyCart s u := RedisStore.emptyCart s u
  ping s := (.ok (RedisStore.ping s).1, (RedisStore.ping s).2)

/-- The JS test `s.trim() === ''`: every character of `s` is whitespace
(trimming both ends leaves the empty string exactly in that case). -/
def isBlank (s : String) : Bool := s.data.all (fun c => c.isWhitespace)

namespace CartHandler

/-- The `addItem` handler: validate `user_id`, `item`, `product_id`, `quantity`
(in that order, `INVALID_ARGUMENT` short-circuits), then call the store;
a storage error becomes `FAILED_PRECONDITION` with a sanitized message.
The third component records the storage calls made. -/
def addItem {σ : Type} (ops : StoreOps σ) (s : σ) (req : AddItemRequest) :
    GrpcReply Unit × σ × List StorageCall :=
  if req.user_id = "" ∨ isBlank req.user_id then
    (.invalidArgument "user_id is required", s, [])
  else
    match req.item with
    | none => (.invalidArgument "item is required", s, [])
    | some item =>
      if item.product_id = "" ∨ isBlank item.product_id then
        (.invalidArgument "product_id is required", s, [])
      else if item.quantity = 0 ∨ item.quantity ≤ 0 then
        (.invalidArgument "quantity must be greater than 0", s, [])
      else
        match ops.addItem s req.user_id item.product_id item.quantity with
        | (.ok _, s') =>
          (.ok (), s', [.add req.user_id item.product_id item.quantity])
        | (.error m, s') =>
          (.failedPrecondition ("Can't access cart storage: " ++ m), s',
            [.add req.user_id item.product_id item.quantity])

/-- The `getCart` handler: validate `user_id`, then read the cart from the store. -/
def getCart {σ : Type} (ops : StoreOps σ) (s : σ) (req : GetCartRequest) :
    GrpcReply Cart × σ × List StorageCall :=
  if req.user_id = "" ∨ isBlank req.user_id then
    (.invalidArgument "user_id is required", s, [])
  else
    match ops.getCart s req.user_id with
    | (.ok cart, s') => (.ok cart, s', [.get req.user_id])
    | (.error m, s') =>
      (.failedPrecondition ("Can't access cart storage: " ++ m), s', [.get req.user_id])

/-- The `emptyCart` handler: validate `user_id`, then empty the cart. -/
def emptyCart {σ : Type} (ops : StoreOps σ) (s : σ) (req : EmptyCartRequest) :
    GrpcReply Unit × σ × List StorageCall :=
  if req.user_id = "" ∨ isBlank req.user_id then
    (.invalidArgument "user_id is required", s, [])
  else
    match ops.emptyCart s req.user_id with
    | (.ok _, s') => (.ok (), s', [.empty req.user_id])
    | (.error m, s') =>
      (.failedPrecondition ("Can't access cart storage: " ++ m), s', [.empty req.user_id])

end CartHandler

/-- gRPC health-check serving status. -/
inductive ServingStatus where
  | UNKNOWN
  | SERVING
  | NOT_SERVING
deriving DecidableEq, Repr

namespace HealthHandler

/-- Health `check` handler: `SERVING` iff the active store's `ping()` resolves
`true`; `false` or any thrown error yields `NOT_SERVING` (the error is
swallowed, the callback still succeeds). -/
def check {σ : Type} (ops : StoreOps σ) (s : σ) : ServingStatus × σ :=
  match ops.ping s with
  | (.ok true, s1) => (.SERVING, s1)
  | (.ok false, s1) => (.NOT_SERVING, s1)
  | (.error _, s1) => (.NOT_SERVING, s1)

end HealthHandler

/-! ## Invariants: at most one item per product in every reachable cart -/

/-- Every cart stored in the memory backend satisfies the §3 invariant. -/
def MemInv (s : MemStore) : Prop :=
  ∀ u cart, lookupAssoc s u = some cart → NodupProducts cart.items

/-- Every value stored in the Redis backend decodes to a cart satisfying the
§3 invariant, with int32-ranged quantities (as every decoded cart has). -/
def RedisInv (s : RedisState) : Prop :=
  ∀ k v, lookupAssoc s.data k = some v →
    ∃ c, deserializeCart v = some c ∧ NodupProducts c.items ∧
      ∀ it ∈ c.items, -2 ^ 31 ≤ it.quantity ∧ it.quantity < 2 ^ 31

theorem nodupProducts_nil : NodupProducts [] := by
  simp [NodupProducts]

theorem memInv_nil : MemInv [] := by
  intro u cart h
  simp [lookupAssoc] at h

theorem memInv_addItem {s : MemStore} (h : MemInv s) (u p : String) (q : Int) :
    MemInv (MemoryStore.addItem s u p q) := by
  intro u' cart' hl
  unfold MemoryStore.addItem at hl
  by_cases hu : u' = u
  · subst hu
    rw [lookupAssoc_setAssoc_self] at hl
    injection hl with hl
    subst hl
    apply nodupProducts_addToItems
    rcases he : lookupAssoc s u' with _ | c0
    · simp [he]
      exact nodupProducts_nil
    · simp only [he, Option.getD_some]
      exact h u' c0 he
  · rw [lookupAssoc_setAssoc_ne _ _ _ _ hu] at hl
    exact h u' cart' hl

theorem memInv_emptyCart {s : MemStore} (h : MemInv s) (u : String) :
    MemInv (MemoryStore.emptyCart s u) := by
  intro u' cart' hl
  unfold MemoryStore.emptyCart at hl
  by_cases hu : u' = u
  · subst hu
    rw [lookupAssoc_setAssoc_self] at hl
    injection hl with hl
    subst hl
    exact nodupProducts_nil
  · rw [lookupAssoc_setAssoc_ne _ _ _ _ hu] at hl
    exact h u' cart' hl

theorem wrapItems_map_productId (items : List CartItem) :
    (wrapItems items).map (fun it => it.productId) = items.map (fun it => it.productId) := by
  simp [wrapItems]

theorem nodupProducts_wrapItems {items : List CartItem} (h : NodupProducts items) :
    NodupProducts (wrapItems items) := by
  unfold NodupProducts
  rw [wrapItems_map_productId]
  exact h

theorem wrapItems_range (items : List CartItem) :
    ∀ it ∈ wrapItems items, -2 ^ 31 ≤ it.quantity ∧ it.quantity < 2 ^ 31 := by
  intro it hit
  simp only [wrapItems, List.mem_map] at hit
  obtain ⟨it0, -, rfl⟩ := hit
  exact wrap32_range it0.quantity

theorem mem_incFirst {items : List CartItem} {p : String} {q : Int} {it : CartItem}
    (h : it ∈ incFirst items p q) :
    it ∈ items ∨ ∃ it0 ∈ items, it = { it0 with quantity := it0.quantity + q } := by
  induction items with
  | nil => simp [incFirst] at h
  | cons hd t ih =>
    by_cases hp : hd.productId = p
    · rw [incFirst, if_pos hp] at h
      rcases List.mem_cons.mp h with rfl | hmem
      · right
        exact ⟨hd, by simp, rfl⟩
      · left
        simp [hmem]
    · rw [incFirst, if_neg hp] at h
      rcases List.mem_cons.mp h with rfl | hmem
      · left
        simp
      · rcases ih hmem with hin | ⟨it0, hit0, rfl⟩
        · left
          simp [hin]
        · right
          exact ⟨it0, by simp [hit0], rfl⟩

theorem addToItems_quantity_lb {items : List CartItem} {p : String} {q : Int}
    (hitems : ∀ it ∈ items, -2 ^ 31 ≤ it.quantity) (hq : 0 < q) :
    ∀ it ∈ addToItems items p q, -2 ^ 64 ≤ it.quantity := by
  intro it hit
  unfold addToItems at hit
  rcases hf : items.find? (fun it => it.productId == p) with _ | it0 <;> rw [hf] at hit
  · rcases List.mem_append.mp hit with hin | hone
    · have := hitems it hin
      omega
    · simp only [List.mem_singleton] at hone
      subst hone
      simp only
      omega
  · rcases mem_incFirst hit with hin | ⟨it1, hit1, rfl⟩
    · have := hitems it hin
      omega
    · have := hitems it1 hit1
      simp only
      omega

theorem redisGetCart_state (s : RedisState) (u : String) :
    (RedisStore.getCart s u).2 = s := by
  unfold RedisStore.getCart clientGetBuffer
  by_cases hr : s.reachable
  · rw [if_pos hr]
    rcases lookupAssoc s.data (RedisStore.getCartKey u) with _ | v
    · rfl
    · simp only
      rcases deserializeCart v with _ | c <;> rfl
  · rw [if_neg hr]

theorem redisGetCart_ok_props {s : RedisState} {u : String} {cart : Cart}
    (hinv : RedisInv s) (hok : (RedisStore.getCart s u).1 = .ok cart) :
    NodupProducts cart.items ∧
      ∀ it ∈ cart.items, -2 ^ 31 ≤ it.quantity ∧ it.quantity < 2 ^ 31 := by
  unfold RedisStore.getCart clientGetBuffer at hok
  by_cases hr : s.reachable
  · rw [if_pos hr] at hok
    rcases hv : lookupAssoc s.data (RedisStore.getCartKey u) with _ | v <;> rw [hv] at hok
    · simp only [Except.ok.injEq] at hok
      subst hok
      exact ⟨nodupProducts_nil, by simp⟩
    · obtain ⟨c, hc, hnodup, hrange⟩ := hinv _ _ hv
      simp only at hok
      rw [hc] at hok
      simp only [Except.ok.injEq] at hok
      subst hok
      exact ⟨hnodup, hrange⟩
  · rw [if_neg hr] at hok
    exact Except.noConfusion hok

theorem redisGetCart_unreachable {s : RedisState} (hr : s.reachable = false) (u : String) :
    RedisStore.getCart s u = (.error ("Can't access cart storage: " ++ s.connMsg), s) := by
  unfold RedisStore.getCart clientGetBuffer
  rw [if_neg (by simp [hr])]

theorem redisGetCart_absent {s : RedisState} (hr : s.reachable = true) {u : String}
    (hk : lookupAssoc s.data (RedisStore.getCartKey u) = none) :
    RedisStore.getCart s u = (.ok ⟨u, []⟩, s) := by
  unfold RedisStore.getCart clientGetBuffer
  rw [if_pos hr, hk]

theorem redisGetCart_found {s : RedisState} (hr : s.reachable = true) {u : String}
    {v : List Nat} (hk : lookupAssoc s.data (RedisStore.getCartKey u) = some v)
    {c : Cart} (hd : deserializeCart v = some c) :
    RedisStore.getCart s u = (.ok c, s) := by
  unfold RedisStore.getCart clientGetBuffer
  rw [if_pos hr, hk]
  simp only
  rw [hd]

theorem redisGetCart_badBytes {s : RedisState} (hr : s.reachable = true) {u : String}
    {v : List Nat} (hk : lookupAssoc s.data (RedisStore.getCartKey u) = some v)
    (hd : deserializeCart v = none) :
    RedisStore.getCart s u =
      (.error ("Can't access cart storage: " ++ protoDecodeFailureMsg v), s) := by
  unfold RedisStore.getCart clientGetBuffer
  rw [if_pos hr, hk]
  simp only
  rw [hd]

theorem redisAddItem_ok {s : RedisState} {u : String} {cart : Cart} (p : String) (q : Int)
    (hr : s.reachable = true)
    (hget : RedisStore.getCart s u = (.ok cart, s)) :
    RedisStore.addItem s u p q = (.ok (),
      ⟨setAssoc s.data (RedisStore.getCartKey u)
        (serializeCart { cart with items := addToItems cart.items p q }),
       s.reachable, s.connMsg, s.pingReply⟩) := by
  unfold RedisStore.addItem
  rw [hget]
  simp only
  unfold clientSet
  rw [if_pos hr]

theorem redisEmptyCart_ok {s : RedisState} (hr : s.reachable = true) (u : String) :
    RedisStore.emptyCart s u = (.ok (),
      ⟨setAssoc s.data (RedisStore.getCartKey u) (serializeCart ⟨u, []⟩),
       s.reachable, s.connMsg, s.pingReply⟩) := by
  unfold RedisStore.emptyCart clientSet
  rw [if_pos hr]

theorem redisInv_addItem {s s' : RedisState} {u p : String} {q : Int}
    (hinv : RedisInv s) (hq : 0 < q)
    (hadd : RedisStore.addItem s u p q = (.ok (), s')) : RedisInv s' := by
  unfold RedisStore.addItem at hadd
  rcases hg : RedisStore.getCart s u with ⟨res, s1⟩
  rw [hg] at hadd
  have hs1 : s1 = s := by
    have h0 := redisGetCart_state s u
    rw [hg] at h0
    exact h0
  rw [hs1] at hadd
  rcases res with m | cart
  · exact Except.noConfusion (congrArg Prod.fst hadd)
  · simp only at hadd
    unfold clientSet at hadd
    by_cases hr : s.reachable = true
    · rw [if_pos hr] at hadd
      simp only [Prod.mk.injEq] at hadd
      obtain ⟨-, rfl⟩ := hadd
      obtain ⟨hnodup, hrange⟩ := redisGetCart_ok_props hinv
        (show (RedisStore.getCart s u).1 = .ok cart by rw [hg])
      intro k v hl
      by_cases hk : k = RedisStore.getCartKey u
      · subst hk
        rw [lookupAssoc_setAssoc_self] at hl
        injection hl with hl
        subst hl
        refine ⟨⟨cart.userId, wrapItems (addToItems cart.items p q)⟩, ?_, ?_, ?_⟩
        · exact deserializeCart_serializeCart _
            (addToItems_quantity_lb (fun it hit => (hrange it hit).1) hq)
        · exact nodupProducts_wrapItems (nodupProducts_addToItems hnodup p q)
        · exact wrapItems_range _
      · rw [lookupAssoc_setAssoc_ne _ _ _ _ hk] at hl
        exact hinv k v hl
    · rw [if_neg hr] at hadd
      exact Except.noConfusion (congrArg Prod.fst hadd)

theorem redisInv_emptyCart {s s' : RedisState} {u : String}
    (hinv : RedisInv s)
    (hempty : RedisStore.emptyCart s u = (.ok (), s')) : RedisInv s' := by
  unfold RedisStore.emptyCart clientSet at hempty
  by_cases hr : s.reachable = true
  · rw [if_pos hr] at hempty
    simp only [Prod.mk.injEq] at hempty
    obtain ⟨-, rfl⟩ := hempty
    intro k v hl
    by_cases hk : k = RedisStore.getCartKey u
    · subst hk
      rw [lookupAssoc_setAssoc_self] at hl
      injection hl with hl
      subst hl
      refine ⟨⟨u, []⟩, ?_, nodupProducts_nil, by simp⟩
      have h0 := deserializeCart_serializeCart ⟨u, []⟩ (by simp)
      simpa [wrapItems] using h0
    · rw [lookupAssoc_setAssoc_ne _ _ _ _ hk] at hl
      exact hinv k v hl
  · rw [if_neg hr] at hempty
    exact Except.noConfusion (congrArg Prod.fst hempty)

/-! ## Helper lemmas for the claim theorems -/

theorem memGetCart_fst (s : MemStore) (u : String) :
    (MemoryStore.getCart s u).1 = (lookupAssoc s u).getD ⟨u, []⟩ := by
  unfold MemoryStore.getCart
  rcases lookupAssoc s u with _ | c <;> rfl

theorem memGetCart_snd (s : MemStore) (u : String) :
    (MemoryStore.getCart s u).2 = s := by
  unfold MemoryStore.getCart
  rcases lookupAssoc s u with _ | c <;> rfl

theorem memAddItem_lookup_self (s : MemStore) (u p : String) (q : Int) :
    lookupAssoc (MemoryStore.addItem s u p q) u =
      some ⟨((lookupAssoc s u).getD ⟨u, []⟩).userId,
        addToItems ((lookupAssoc s u).getD ⟨u, []⟩).items p q⟩ := by
  unfold MemoryStore.addItem
  rw [lookupAssoc_setAssoc_self]

theorem memGetCart_addItem_items (s : MemStore) (u p : String) (q : Int) :
    ((MemoryStore.getCart (MemoryStore.addItem s u p q) u).1).items =
      addToItems ((MemoryStore.getCart s u).1).items p q := by
  rw [memGetCart_fst, memGetCart_fst, memAddItem_lookup_self]
  rfl

theorem incFirst_append_of_none (a b : List CartItem) (p : String) (q : Int)
    (ha : ∀ it ∈ a, ¬ (it.productId = p)) :
    incFirst (a ++ b) p q = a ++ incFirst b p q := by
  induction a with
  | nil => simp
  | cons hd t ih =>
    have hhd : ¬ (hd.productId = p) := ha hd (by simp)
    simp only [List.cons_append, incFirst, if_neg hhd, List.append_eq]
    rw [ih (fun it hit => ha it (by simp [hit]))]

theorem addToItems_after_absent (items0 : List CartItem) (p : String) (q1 q2 : Int)
    (hp : productCount items0 p = 0) :
    addToItems (addToItems items0 p q1) p q2 = items0 ++ [⟨p, q1 + q2⟩] := by
  rw [addToItems_of_absent items0 p q1 hp]
  have hnomatch : ∀ it ∈ items0, ¬ (it.productId = p) := by
    intro it hit
    have h0 := List.find?_eq_none.mp (find?_eq_none_of_count_zero items0 p hp) it hit
    simpa using h0
  have hcount : productCount (items0 ++ [⟨p, q1⟩]) p ≠ 0 := by
    rw [productCount_append, productCount_singleton_self]
    omega
  have hs := find?_isSome_of_count_ne_zero _ p hcount
  rcases hf : (items0 ++ [(⟨p, q1⟩ : CartItem)]).find? (fun it => it.productId == p)
    with _ | it
  · rw [hf] at hs
    simp at hs
  · rw [addToItems, hf]
    rw [incFirst_append_of_none _ _ _ _ hnomatch]
    simp [incFirst]

theorem getCartKey_injective {a b : String} (h : a ≠ b) :
    RedisStore.getCartKey a ≠ RedisStore.getCartKey b := by
  unfold RedisStore.getCartKey
  intro hc
  apply h
  have hdata : ("cart:" ++ a).data = ("cart:" ++ b).data := by rw [hc]
  rw [String.data_append, String.data_append] at hdata
  have := List.append_cancel_left hdata
  cases a
  cases b
  simp_all

theorem redisAddItem_ok_shape {s s' : RedisState} {u p : String} {q : Int}
    (hadd : RedisStore.addItem s u p q = (.ok (), s')) :
    ∃ bytes, s'.data = setAssoc s.data (RedisStore.getCartKey u) bytes ∧
      s'.reachable = s.reachable ∧ s'.connMsg = s.connMsg ∧ s'.pingReply = s.pingReply := by
  unfold RedisStore.addItem at hadd
  rcases hg : RedisStore.getCart s u with ⟨res, s1⟩
  rw [hg] at hadd
  have hs1 : s1 = s := by
    have h0 := redisGetCart_state s u
    rw [hg] at h0
    exact h0
  rw [hs1] at hadd
  rcases res with m | cart
  · exact Except.noConfusion (congrArg Prod.fst hadd)
  · simp only at hadd
    unfold clientSet at hadd
    by_cases hr : s.reachable = true
    · rw [if_pos hr] at hadd
      simp only [Prod.mk.injEq] at hadd
      obtain ⟨-, rfl⟩ := hadd
      exact ⟨_, rfl, rfl, rfl, rfl⟩
    · rw [if_neg hr] at hadd
      exact Except.noConfusion (congrArg Prod.fst hadd)

theorem redisEmptyCart_ok_shape {s s' : RedisState} {u : String}
    (hempty : RedisStore.emptyCart s u = (.ok (), s')) :
    s'.data = setAssoc s.data (RedisStore.getCartKey u) (serializeCart ⟨u, []⟩) ∧
      s'.reachable = s.reachable ∧ s'.connMsg = s.connMsg ∧ s'.pingReply = s.pingReply := by
  unfold RedisStore.emptyCart clientSet at hempty
  by_cases hr : s.reachable = true
  · rw [if_pos hr] at hempty
    simp only [Prod.mk.injEq] at hempty
    obtain ⟨-, rfl⟩ := hempty
    exact ⟨rfl, rfl, rfl, rfl⟩
  · rw [if_neg hr] at hempty
    exact Except.noConfusion (congrArg Prod.fst hempty)

theorem deserializeCart_single_0A : deserializeCart [0x0A] = none := by
  unfold deserializeCart
  rw [decodeCartLoop.eq_def]
  rw [if_neg (by simp)]
  have hv : varintDecode [0x0A] = some (0x0A, []) := by simp [varintDecode]
  split
  · next heq =>
      rw [hv] at heq
  · next tag r heq =>
      rw [hv] at heq
      cases heq
      rw [if_pos (show (0x0A : Nat) / 8 = 1 by norm_num)]
      have hrs : readString ([] : List Nat) = none := by
        unfold readString varintDecode
        rfl
      split
      · next s' r' heq2 =>
          rw [hrs] at heq2
          exact Option.noConfusion heq2
      · next heq2 => rfl

/-- Written from §6's schema table (the spec side of the layout check):
`CartItem { field 1: string productId; field 2: int32 quantity }` — tag
`1<<3|2` then the length-prefixed UTF-8 product id, tag `2<<3|0` then the
int32 quantity varint. -/
def wireLayoutItem (it : CartItem) : List Nat :=
  [1 * 8 + 2] ++ varintEncode (utf8Encode it.productId).length ++
    utf8Encode it.productId ++ [2 * 8 + 0] ++ int32Encode it.quantity

/-- Written from §6's schema table: `Cart { field 1: string userId; field 2:
repeated CartItem items }` — tag `1<<3|2` then the length-prefixed UTF-8 user
id, then each item as tag `2<<3|2` with its length-prefixed submessage. -/
def wireLayout (c : Cart) : List Nat :=
  [1 * 8 + 2] ++ varintEncode (utf8Encode c.userId).length ++ utf8Encode c.userId ++
    c.items.flatMap (fun it =>
      [2 * 8 + 2] ++ varintEncode (wireLayoutItem it).length ++ wireLayoutItem it)

theorem wireLayoutItem_eq (it : CartItem) : wireLayoutItem it = encodeItemBody it := by
  unfold wireLayoutItem encodeItemBody encodeString
  simp [List.append_assoc]

theorem serializeCart_eq_wireLayout (c : Cart) : serializeCart c = wireLayout c := by
  unfold serializeCart wireLayout encodeString
  simp only [wireLayoutItem_eq]
  simp [List.append_assoc]

/-! ## Claim theorems -/

/-- C1: executing `addItem(u, p, q1)` then `addItem(u, p, q2)` sequentially,
from a state whose cart for `u` has no entry for `p`, leaves exactly one item
entry for `p` with quantity `q1 + q2`, on both the memory and the Redis
backend; and sequential `addItem`/`emptyCart` operations preserve the
at-most-one-`CartItem`-per-`productId` invariant on both backends. -/
theorem C1_merge_idempotent_on_product
    (q1 q2 : Int) (h1 : 0 < q1) (h2 : 0 < q2) (u p : String)
    (s : MemStore) (hp : productCount ((MemoryStore.getCart s u).1).items p = 0)
    (hinv : MemInv s)
    (rs : RedisState) (hre : rs.reachable = true) (hrinv : RedisInv rs)
    (hrp : ∀ v c, lookupAssoc rs.data (RedisStore.getCartKey u) = some v →
      deserializeCart v = some c → productCount c.items p = 0)
    (hsum : q1 + q2 < 2 ^ 31) :
    (productCount ((MemoryStore.getCart
        (MemoryStore.addItem (MemoryStore.addItem s u p q1) u p q2) u).1).items p = 1 ∧
      productQty ((MemoryStore.getCart
        (MemoryStore.addItem (MemoryStore.addItem s u p q1) u p q2) u).1).items p
        = q1 + q2) ∧
    MemInv (MemoryStore.addItem (MemoryStore.addItem s u p q1) u p q2) ∧
    (∃ rs1 rs2 c,
      RedisStore.addItem rs u p q1 = (.ok (), rs1) ∧
      RedisStore.addItem rs1 u p q2 = (.ok (), rs2) ∧
      (RedisStore.getCart rs2 u).1 = .ok c ∧
      productCount c.items p = 1 ∧ productQty c.items p = q1 + q2 ∧
      RedisInv rs2) ∧
    (∀ (s' : MemStore) (u' p' : String) (q' : Int),
      MemInv s' → MemInv (MemoryStore.addItem s' u' p' q')) ∧
    (∀ (s' : MemStore) (u' : String), MemInv s' → MemInv (MemoryStore.emptyCart s' u')) ∧
    (∀ (ra rb : RedisState) (u' p' : String) (q' : Int), RedisInv ra → 0 < q' →
      RedisStore.addItem ra u' p' q' = (.ok (), rb) → RedisInv rb) ∧
    (∀ (ra rb : RedisState) (u' : String), RedisInv ra →
      RedisStore.emptyCart ra u' = (.ok (), rb) → RedisInv rb) := by
  have hitems2 : ((MemoryStore.getCart
      (MemoryStore.addItem (MemoryStore.addItem s u p q1) u p q2) u).1).items =
      ((MemoryStore.getCart s u).1).items ++ [⟨p, q1 + q2⟩] := by
    rw [memGetCart_addItem_items, memGetCart_addItem_items]
    exact addToItems_after_absent _ p q1 q2 hp
  refine ⟨⟨?_, ?_⟩, memInv_addItem (memInv_addItem hinv u p q1) u p q2, ?_,
    fun s' u' p' q' hi => memInv_addItem hi u' p' q',
    fun s' u' hi => memInv_emptyCart hi u',
    fun ra rb u' p' q' hi hq' ha => redisInv_addItem hi hq' ha,
    fun ra rb u' hi he => redisInv_emptyCart hi he⟩
  · rw [hitems2, productCount_append, hp, productCount_singleton_self]
  · rw [hitems2, productQty_append, productQty_of_count_zero _ _ hp,
      productQty_singleton_self]
    ring
  · obtain ⟨c0, hget0, hcount0, hrange0⟩ :
        ∃ c0, RedisStore.getCart rs u = (.ok c0, rs) ∧ productCount c0.items p = 0 ∧
          ∀ it ∈ c0.items, -2 ^ 31 ≤ it.quantity ∧ it.quantity < 2 ^ 31 := by
      rcases hv : lookupAssoc rs.data (RedisStore.getCartKey u) with _ | v
      · exact ⟨⟨u, []⟩, redisGetCart_absent hre hv, by simp [productCount], by simp⟩
      · obtain ⟨c, hc, -, hrange⟩ := hrinv _ _ hv
        exact ⟨c, redisGetCart_found hre hv hc, hrp v c hv hc, hrange⟩
    have hc1items : addToItems c0.items p q1 = c0.items ++ [⟨p, q1⟩] :=
      addToItems_of_absent _ _ _ hcount0
    have hadd1 := redisAddItem_ok p q1 hre hget0
    set rs1 : RedisState := ⟨setAssoc rs.data (RedisStore.getCartKey u)
      (serializeCart { c0 with items := addToItems c0.items p q1 }),
      rs.reachable, rs.connMsg, rs.pingReply⟩ with hrs1
    have hre1 : rs1.reachable = true := hre
    have hrange1 : ∀ it ∈ addToItems c0.items p q1,
        -2 ^ 31 ≤ it.quantity ∧ it.quantity < 2 ^ 31 := by
      rw [hc1items]
      intro it hit
      rcases List.mem_append.mp hit with hin | hone
      · exact hrange0 it hin
      · simp only [List.mem_singleton] at hone
        subst hone
        show -2 ^ 31 ≤ q1 ∧ q1 < 2 ^ 31
        omega
    have hdec1 : deserializeCart (serializeCart
        { c0 with items := addToItems c0.items p q1 }) =
        some { c0 with items := addToItems c0.items p q1 } :=
      deserializeCart_serializeCart_of_inRange _ hrange1
    have hget1 : RedisStore.getCart rs1 u =
        (.ok { c0 with items := addToItems c0.items p q1 }, rs1) := by
      apply redisGetCart_found hre1 _ hdec1
      rw [hrs1]
      exact lookupAssoc_setAssoc_self _ _ _
    have hadd2 := redisAddItem_ok p q2 hre1 hget1
    set rs2 : RedisState := ⟨setAssoc rs1.data (RedisStore.getCartKey u)
      (serializeCart { c0 with items := addToItems (addToItems c0.items p q1) p q2 }),
      rs1.reachable, rs1.connMsg, rs1.pingReply⟩ with hrs2
    have hre2 : rs2.reachable = true := hre1
    have hc2items : addToItems (addToItems c0.items p q1) p q2 =
        c0.items ++ [⟨p, q1 + q2⟩] :=
      addToItems_after_absent c0.items p q1 q2 hcount0
    have hrange2 : ∀ it ∈ addToItems (addToItems c0.items p q1) p q2,
        -2 ^ 31 ≤ it.quantity ∧ it.quantity < 2 ^ 31 := by
      rw [hc2items]
      intro it hit
      rcases List.mem_append.mp hit with hin | hone
      · exact hrange0 it hin
      · simp only [List.mem_singleton] at hone
        subst hone
        show -2 ^ 31 ≤ q1 + q2 ∧ q1 + q2 < 2 ^ 31
        omega
    have hdec2 : deserializeCart (serializeCart
        { c0 with items := addToItems (addToItems c0.items p q1) p q2 }) =
        some { c0 with items := addToItems (addToItems c0.items p q1) p q2 } :=
      deserializeCart_serializeCart_of_inRange _ hrange2
    have hget2 : RedisStore.getCart rs2 u =
        (.ok { c0 with items := addToItems (addToItems c0.items p q1) p q2 }, rs2) := by
      apply redisGetCart_found hre2 _ hdec2
      rw [hrs2]
      exact lookupAssoc_setAssoc_self _ _ _
    refine ⟨rs1, rs2, { c0 with items := addToItems (addToItems c0.items p q1) p q2 },
      hadd1, hadd2, by rw [hget2], ?_, ?_, ?_⟩
    · simp only [hc2items]
      rw [productCount_append, hcount0, productCount_singleton_self]
    · simp only [hc2items]
      rw [productQty_append, productQty_of_count_zero _ _ hcount0,
        productQty_singleton_self]
      ring
    · exact redisInv_addItem (redisInv_addItem hrinv h1 hadd1) h2 hadd2

/-- Witness for C1: `q1 = 2`, `q2 = 3`, user `"u1"`, product `"p1"`, empty
stores — the merged cart holds exactly one `"p1"` entry with quantity `5`. -/
theorem C1_witness :
    productCount ((MemoryStore.getCart
      (MemoryStore.addItem (MemoryStore.addItem [] "u1" "p1" 2) "u1" "p1" 3) "u1").1).items
      "p1" = 1 ∧
    (∃ rs1 rs2 c,
      RedisStore.addItem ⟨[], true, "connection closed", "PONG"⟩ "u1" "p1" 2 =
        (.ok (), rs1) ∧
      RedisStore.addItem rs1 "u1" "p1" 3 = (.ok (), rs2) ∧
      (RedisStore.getCart rs2 "u1").1 = .ok c ∧
      productCount c.items "p1" = 1 ∧ productQty c.items "p1" = 2 + 3 ∧ RedisInv rs2) := by
  have h := C1_merge_idempotent_on_product 2 3 (by norm_num) (by norm_num) "u1" "p1"
    [] (by rfl) memInv_nil ⟨[], true, "connection closed", "PONG"⟩ rfl
    (by intro k v hv; simp [lookupAssoc] at hv)
    (by intro v c hv hc; simp [lookupAssoc] at hv)
    (by norm_num)
  exact ⟨h.1.1, h.2.2.1⟩

/-- C2: for a userId with no stored record, `getCart` returns the explicit
empty cart `{userId, items: []}` and does not fail, on both backends (for the
Redis backend, with the client reachable — absence alone is never an error). -/
theorem C2_absence_is_empty (u : String) (s : MemStore) (hs : lookupAssoc s u = none)
    (rs : RedisState) (hre : rs.reachable = true)
    (hrd : lookupAssoc rs.data (RedisStore.getCartKey u) = none) :
    (MemoryStore.getCart s u).1 = ⟨u, []⟩ ∧
    RedisStore.getCart rs u = (.ok ⟨u, []⟩, rs) := by
  constructor
  · rw [memGetCart_fst, hs]
    rfl
  · exact redisGetCart_absent hre hrd

/-- Witness for C2: the never-seen user `"ghost"` on empty stores. -/
theorem C2_witness :
    (MemoryStore.getCart [] "ghost").1 = ⟨"ghost", []⟩ ∧
    RedisStore.getCart ⟨[], true, "connection closed", "PONG"⟩ "ghost" =
      (.ok ⟨"ghost", []⟩, ⟨[], true, "connection closed", "PONG"⟩) :=
  C2_absence_is_empty "ghost" [] rfl ⟨[], true, "connection closed", "PONG"⟩ rfl rfl

/-- C3: `emptyCart(u)` persists the explicit empty record unconditionally on
both backends — the key stays present with `{userId: u, items: []}`, the
operation is idempotent, and a subsequent `getCart(u)` returns the empty
cart. -/
theorem C3_empty_then_get (u : String) (s : MemStore) (rs : RedisState)
    (hre : rs.reachable = true) :
    (MemoryStore.getCart (MemoryStore.emptyCart s u) u).1 = ⟨u, []⟩ ∧
    lookupAssoc (MemoryStore.emptyCart s u) u = some ⟨u, []⟩ ∧
    MemoryStore.emptyCart (MemoryStore.emptyCart s u) u = MemoryStore.emptyCart s u ∧
    (∃ rs', RedisStore.emptyCart rs u = (.ok (), rs') ∧
      lookupAssoc rs'.data (RedisStore.getCartKey u) = some (serializeCart ⟨u, []⟩) ∧
      RedisStore.getCart rs' u = (.ok ⟨u, []⟩, rs') ∧
      RedisStore.emptyCart rs' u = (.ok (), rs')) := by
  refine ⟨?_, ?_, ?_, ?_⟩
  · rw [memGetCart_fst]
    unfold MemoryStore.emptyCart
    rw [lookupAssoc_setAssoc_self]
    rfl
  · unfold MemoryStore.emptyCart
    exact lookupAssoc_setAssoc_self _ _ _
  · unfold MemoryStore.emptyCart
    exact setAssoc_setAssoc_self _ _ _ _
  · have he1 := redisEmptyCart_ok hre u
    set rs' : RedisState := ⟨setAssoc rs.data (RedisStore.getCartKey u)
      (serializeCart ⟨u, []⟩), rs.reachable, rs.connMsg, rs.pingReply⟩ with hrs'
    have hre' : rs'.reachable = true := hre
    have hlk : lookupAssoc rs'.data (RedisStore.getCartKey u) =
        some (serializeCart ⟨u, []⟩) := by
      rw [hrs']
      exact lookupAssoc_setAssoc_self _ _ _
    have hdec : deserializeCart (serializeCart ⟨u, []⟩) = some ⟨u, []⟩ :=
      deserializeCart_serializeCart_of_inRange ⟨u, []⟩ (by simp)
    refine ⟨rs', he1, hlk, redisGetCart_found hre' hlk hdec, ?_⟩
    have he2 := redisEmptyCart_ok hre' u
    rw [he2, hrs']
    rw [setAssoc_setAssoc_self]

/-- Witness for C3: emptying user `"u1"` on an empty memory store and a
reachable Redis backend. -/
theorem C3_witness :
    (MemoryStore.getCart (MemoryStore.emptyCart [] "u1") "u1").1 = ⟨"u1", []⟩ ∧
    lookupAssoc (MemoryStore.emptyCart [] "u1") "u1" = some ⟨"u1", []⟩ ∧
    MemoryStore.emptyCart (MemoryStore.emptyCart [] "u1") "u1" =
      MemoryStore.emptyCart [] "u1" ∧
    (∃ rs', RedisStore.emptyCart ⟨[], true, "connection closed", "PONG"⟩ "u1" =
        (.ok (), rs') ∧
      lookupAssoc rs'.data (RedisStore.getCartKey "u1") =
        some (serializeCart ⟨"u1", []⟩) ∧
      RedisStore.getCart rs' "u1" = (.ok ⟨"u1", []⟩, rs') ∧
      RedisStore.emptyCart rs' "u1" = (.ok (), rs')) :=
  C3_empty_then_get "u1" [] ⟨[], true, "connection closed", "PONG"⟩ rfl

/-- C4 counterexample: the cart with quantity `2^31` (a "Cart value": the data
model puts no upper bound on quantities) does not round-trip — the `int32`
wire type wraps it to `-2^31`, so `decode (encode cart) ≠ some cart`. -/
theorem C4_counterexample :
    deserializeCart (serializeCart ⟨"u", [⟨"p", 2 ^ 31⟩]⟩) =
      some ⟨"u", [⟨"p", -(2 ^ 31)⟩]⟩ ∧
    (⟨"u", [⟨"p", -(2 ^ 31)⟩]⟩ : Cart) ≠ ⟨"u", [⟨"p", 2 ^ 31⟩]⟩ := by
  constructor
  · rw [deserializeCart_serializeCart ⟨"u", [⟨"p", 2 ^ 31⟩]⟩ (by
      intro it hit
      simp only [List.mem_singleton] at hit
      subst hit
      norm_num)]
    simp only [wrapItems, List.map_cons, List.map_nil]
    decide
  · decide

/-- C4 (amended): for every cart whose quantities lie within the int32 range
forced by §6's wire type, `decode (encode cart) = cart`, and the encoder
output follows the fixed §6 field-tag layout (field 1 string, field 2
repeated/int32, tags `1<<3|2`, `2<<3|2`, `2<<3|0`). -/
theorem C4_codec_roundtrip (c : Cart)
    (h : ∀ it ∈ c.items, -2 ^ 31 ≤ it.quantity ∧ it.quantity < 2 ^ 31) :
    deserializeCart (serializeCart c) = some c ∧ serializeCart c = wireLayout c :=
  ⟨deserializeCart_serializeCart_of_inRange c h, serializeCart_eq_wireLayout c⟩

/-- Witness for C4 on the concrete cart of §8's scenario 5. -/
theorem C4_witness :
    deserializeCart (serializeCart ⟨"u1", [⟨"p1", 5⟩]⟩) = some ⟨"u1", [⟨"p1", 5⟩]⟩ ∧
    serializeCart ⟨"u1", [⟨"p1", 5⟩]⟩ = wireLayout ⟨"u1", [⟨"p1", 5⟩]⟩ :=
  C4_codec_roundtrip ⟨"u1", [⟨"p1", 5⟩]⟩ (by
    intro it hit
    simp only [List.mem_singleton] at hit
    subst hit
    norm_num)

/-- A request the `addItem` handler's validation rejects: blank `user_id`,
missing item payload, blank `product_id`, or quantity zero/negative. -/
def addItemRejected (req : AddItemRequest) : Prop :=
  req.user_id = "" ∨ isBlank req.user_id ∨ req.item = none ∨
    ∃ it, req.item = some it ∧
      (it.product_id = "" ∨ isBlank it.product_id ∨ it.quantity = 0 ∨ it.quantity ≤ 0)

/-- C5: every request that fails validation is answered with
`INVALID_ARGUMENT` (status 3), the handler makes no storage call, and the
stored state is unchanged — for `addItem`, `getCart` and `emptyCart`,
whatever the backend. -/
theorem C5_validation_never_persists {σ : Type} (ops : StoreOps σ) (s : σ)
    (req : AddItemRequest) (h : addItemRejected req)
    (greq : GetCartRequest) (hg : greq.user_id = "" ∨ isBlank greq.user_id)
    (ereq : EmptyCartRequest) (he : ereq.user_id = "" ∨ isBlank ereq.user_id) :
    (replyStatusCode (CartHandler.addItem ops s req).1 = 3 ∧
      (CartHandler.addItem ops s req).2.1 = s ∧
      (CartHandler.addItem ops s req).2.2 = []) ∧
    (replyStatusCode (CartHandler.getCart ops s greq).1 = 3 ∧
      (CartHandler.getCart ops s greq).2.1 = s ∧
      (CartHandler.getCart ops s greq).2.2 = []) ∧
    (replyStatusCode (CartHandler.emptyCart ops s ereq).1 = 3 ∧
      (CartHandler.emptyCart ops s ereq).2.1 = s ∧
      (CartHandler.emptyCart ops s ereq).2.2 = []) := by
  refine ⟨?_, ?_, ?_⟩
  · unfold CartHandler.addItem
    split
    · exact ⟨rfl, rfl, rfl⟩
    · next h1 =>
      split
      · next hi => exact ⟨rfl, rfl, rfl⟩
      · next item hi =>
        split
        · exact ⟨rfl, rfl, rfl⟩
        · next h2 =>
          split
          · exact ⟨rfl, rfl, rfl⟩
          · next h3 =>
            exfalso
            unfold addItemRejected at h
            rcases h with h | h | h | ⟨it, hit, hbad⟩
            · exact h1 (Or.inl h)
            · exact h1 (Or.inr h)
            · rw [hi] at h
              exact Option.noConfusion h
            · rw [hi] at hit
              injection hit with hit
              subst hit
              rcases hbad with hb | hb | hb | hb
              · exact h2 (Or.inl hb)
              · exact h2 (Or.inr hb)
              · exact h3 (Or.inl hb)
              · exact h3 (Or.inr hb)
  · unfold CartHandler.getCart
    rw [if_pos hg]
    exact ⟨rfl, rfl, rfl⟩
  · unfold CartHandler.emptyCart
    rw [if_pos he]
    exact ⟨rfl, rfl, rfl⟩

/-- Witness for C5: `addItem` with an empty product id, `getCart`/`emptyCart`
with an empty user id, on the memory backend holding a pre-existing cart for
`"u1"` — all three are rejected with status 3 and the store keeps its state. -/
theorem C5_witness :
    (replyStatusCode (CartHandler.addItem memOps [("u1", ⟨"u1", [⟨"p1", 2⟩]⟩)]
        ⟨"u1", some ⟨"", 1⟩⟩).1 = 3 ∧
      (CartHandler.addItem memOps [("u1", ⟨"u1", [⟨"p1", 2⟩]⟩)]
        ⟨"u1", some ⟨"", 1⟩⟩).2.1 = [("u1", ⟨"u1", [⟨"p1", 2⟩]⟩)] ∧
      (CartHandler.addItem memOps [("u1", ⟨"u1", [⟨"p1", 2⟩]⟩)]
        ⟨"u1", some ⟨"", 1⟩⟩).2.2 = []) ∧
    (replyStatusCode (CartHandler.getCart memOps [("u1", ⟨"u1", [⟨"p1", 2⟩]⟩)]
        ⟨""⟩).1 = 3 ∧
      (CartHandler.getCart memOps [("u1", ⟨"u1", [⟨"p1", 2⟩]⟩)] ⟨""⟩).2.1 =
        [("u1", ⟨"u1", [⟨"p1", 2⟩]⟩)] ∧
      (CartHandler.getCart memOps [("u1", ⟨"u1", [⟨"p1", 2⟩]⟩)] ⟨""⟩).2.2 = []) ∧
    (replyStatusCode (CartHandler.emptyCart memOps [("u1", ⟨"u1", [⟨"p1", 2⟩]⟩)]
        ⟨""⟩).1 = 3 ∧
      (CartHandler.emptyCart memOps [("u1", ⟨"u1", [⟨"p1", 2⟩]⟩)] ⟨""⟩).2.1 =
        [("u1", ⟨"u1", [⟨"p1", 2⟩]⟩)] ∧
      (CartHandler.emptyCart memOps [("u1", ⟨"u1", [⟨"p1", 2⟩]⟩)] ⟨""⟩).2.2 = []) :=
  C5_validation_never_persists memOps [("u1", ⟨"u1", [⟨"p1", 2⟩]⟩)]
    ⟨"u1", some ⟨"", 1⟩⟩ (Or.inr (Or.inr (Or.inr ⟨⟨"", 1⟩, rfl, Or.inl rfl⟩)))
    ⟨""⟩ (Or.inl rfl) ⟨""⟩ (Or.inl rfl)

/-- C6: whenever the `addItem` handler invokes the storage layer, the call
carries the request's item with a strictly positive (integer-typed) quantity
and non-blank user and product ids — invalid quantities never reach storage. -/
theorem C6_caller_enforces_storage_precondition {σ : Type} (ops : StoreOps σ) (s : σ)
    (req : AddItemRequest) (c : StorageCall)
    (hc : c ∈ (CartHandler.addItem ops s req).2.2) :
    ∃ it, req.item = some it ∧ c = .add req.user_id it.product_id it.quantity ∧
      0 < it.quantity ∧ ¬ (req.user_id = "") ∧ ¬ (isBlank req.user_id) ∧
      ¬ (it.product_id = "") ∧ ¬ (isBlank it.product_id) := by
  unfold CartHandler.addItem at hc
  split at hc
  · simp at hc
  · next h1 =>
    split at hc
    · simp at hc
    · next item hi =>
      split at hc
      · simp at hc
      · next h2 =>
        split at hc
        · simp at hc
        · next h3 =>
          push_neg at h1 h2 h3
          have hq : 0 < item.quantity := by
            rcases h3 with ⟨-, h3b⟩
            omega
          split at hc <;>
          · simp only [List.mem_singleton] at hc
            subst hc
            exact ⟨item, hi, rfl, hq, by simpa using h1.1, by simpa using h1.2,
              by simpa using h2.1, by simpa using h2.2⟩

/-- Witness for C6: the storage call traced for a valid request carries the
positive quantity `5`. -/
theorem C6_witness :
    ∃ it, (⟨"u1", some ⟨"p1", 5⟩⟩ : AddItemRequest).item = some it ∧
      StorageCall.add "u1" "p1" 5 =
        .add (⟨"u1", some ⟨"p1", 5⟩⟩ : AddItemRequest).user_id it.product_id it.quantity ∧
      0 < it.quantity ∧ ¬ ((⟨"u1", some ⟨"p1", 5⟩⟩ : AddItemRequest).user_id = "") ∧
      ¬ (isBlank (⟨"u1", some ⟨"p1", 5⟩⟩ : AddItemRequest).user_id) ∧
      ¬ (it.product_id = "") ∧ ¬ (isBlank it.product_id) :=
  C6_caller_enforces_storage_precondition memOps [] ⟨"u1", some ⟨"p1", 5⟩⟩
    (.add "u1" "p1" 5) (by decide)

/-- C7 (amended): stored bytes that do not decode make the Redis read path
fail — `getCart` reports an error, never an empty-cart result — but the
failure is wrapped in the same generic `Can't access cart storage: …` message
shape as a connectivity (StorageUnavailable) failure, not a distinct error
class. -/
theorem C7_malformed_bytes_fail_not_coerced (rs : RedisState) (u : String) (v : List Nat)
    (hre : rs.reachable = true)
    (hk : lookupAssoc rs.data (RedisStore.getCartKey u) = some v)
    (hd : deserializeCart v = none) :
    RedisStore.getCart rs u =
      (.error ("Can't access cart storage: " ++ protoDecodeFailureMsg v), rs) ∧
    (∀ c, (RedisStore.getCart rs u).1 ≠ .ok c) ∧
    (∀ rs2 : RedisState, rs2.reachable = false →
      RedisStore.getCart rs2 u =
        (.error ("Can't access cart storage: " ++ rs2.connMsg), rs2)) := by
  have hbad := redisGetCart_badBytes hre hk hd
  refine ⟨hbad, ?_, fun rs2 h2 => redisGetCart_unreachable h2 u⟩
  intro c
  rw [hbad]
  simp

/-- C7 counterexample: with the malformed stored bytes `[0x0A]` the read path
produces an error with exactly the same `Can't access cart storage` wrapper —
and the handler maps it to the same FAILED_PRECONDITION status code 9 — as a
backend-unreachable failure, so no failure class distinguishable from
StorageUnavailable is reported. -/
theorem C7_counterexample :
    (RedisStore.getCart ⟨[("cart:u1", [0x0A])], true, "Connection is closed.", "PONG"⟩
        "u1").1 =
      .error ("Can't access cart storage: " ++ protoDecodeFailureMsg [0x0A]) ∧
    (RedisStore.getCart ⟨[("cart:u1", [0x0A])], false, "Connection is closed.", "PONG"⟩
        "u1").1 =
      .error ("Can't access cart storage: " ++ "Connection is closed.") ∧
    replyStatusCode (CartHandler.getCart redisOps
      ⟨[("cart:u1", [0x0A])], true, "Connection is closed.", "PONG"⟩ ⟨"u1"⟩).1 = 9 ∧
    replyStatusCode (CartHandler.getCart redisOps
      ⟨[("cart:u1", [0x0A])], false, "Connection is closed.", "PONG"⟩ ⟨"u1"⟩).1 = 9 := by
  have hk1 : lookupAssoc (⟨[("cart:u1", [0x0A])], true, "Connection is closed.",
      "PONG"⟩ : RedisState).data (RedisStore.getCartKey "u1") = some [0x0A] := by
    decide
  have h1 := redisGetCart_badBytes (s := ⟨[("cart:u1", [0x0A])], true,
    "Connection is closed.", "PONG"⟩) rfl hk1 deserializeCart_single_0A
  have h2 := redisGetCart_unreachable (s := ⟨[("cart:u1", [0x0A])], false,
    "Connection is closed.", "PONG"⟩) rfl "u1"
  refine ⟨by rw [h1], by rw [h2], ?_, ?_⟩
  · unfold CartHandler.getCart
    rw [if_neg (by decide)]
    simp only [redisOps]
    rw [h1]
    rfl
  · unfold CartHandler.getCart
    rw [if_neg (by decide)]
    simp only [redisOps]
    rw [h2]
    rfl

/-- C8: `ping()` always returns a boolean and never propagates a failure —
the Redis store maps exactly the reply `'PONG'` on a reachable backend to
`true` and everything else (including connection errors) to `false`, the
memory store always answers `true`, and the health handler answers SERVING
exactly when the active store's `ping()` resolves `true`, NOT_SERVING when it
resolves `false` or throws. -/
theorem C8_ping_never_throws :
    (∀ rs : RedisState,
      ((RedisStore.ping rs).1 = true ↔ rs.reachable = true ∧ rs.pingReply = "PONG") ∧
      (RedisStore.ping rs).2 = rs) ∧
    (∀ s : MemStore, MemoryStore.ping s = true) ∧
    (∀ (σ : Type) (ops : StoreOps σ) (s : σ),
      ((HealthHandler.check ops s).1 = .SERVING ↔ (ops.ping s).1 = .ok true) ∧
      ((HealthHandler.check ops s).1 = .SERVING ∨
        (HealthHandler.check ops s).1 = .NOT_SERVING)) := by
  refine ⟨?_, fun s => rfl, ?_⟩
  · intro rs
    unfold RedisStore.ping clientPing
    by_cases hr : rs.reachable = true
    · rw [if_pos hr]
      constructor
      · simp [hr, beq_iff_eq]
      · rfl
    · rw [if_neg hr]
      constructor
      · simp [hr]
      · rfl
  · intro σ ops s
    unfold HealthHandler.check
    rcases hp : ops.ping s with ⟨res, s1⟩
    rcases res with m | b
    · simp
    · rcases b with _ | _ <;> simp

/-- C9: `addItem(u, p, q)` and `emptyCart(u)` touch at most user `u`'s record
on both backends, and within the cart `addItem` leaves every item of a
different product untouched in value and relative order and appends a new
product at the end. -/
theorem C9_frame_effects (u v p : String) (q : Int) (s : MemStore) (hvu : v ≠ u)
    (items : List CartItem) :
    lookupAssoc (MemoryStore.addItem s u p q) v = lookupAssoc s v ∧
    lookupAssoc (MemoryStore.emptyCart s u) v = lookupAssoc s v ∧
    (addToItems items p q).filter (fun it => !(it.productId == p)) =
      items.filter (fun it => !(it.productId == p)) ∧
    (productCount items p = 0 → addToItems items p q = items ++ [⟨p, q⟩]) ∧
    (∀ rs rs' : RedisState, RedisStore.addItem rs u p q = (.ok (), rs') →
      lookupAssoc rs'.data (RedisStore.getCartKey v) =
        lookupAssoc rs.data (RedisStore.getCartKey v)) ∧
    (∀ rs rs' : RedisState, RedisStore.emptyCart rs u = (.ok (), rs') →
      lookupAssoc rs'.data (RedisStore.getCartKey v) =
        lookupAssoc rs.data (RedisStore.getCartKey v)) := by
  refine ⟨?_, ?_, addToItems_filter_ne items p q,
    fun h => addToItems_of_absent items p q h, ?_, ?_⟩
  · unfold MemoryStore.addItem
    exact lookupAssoc_setAssoc_ne _ _ _ _ hvu
  · unfold MemoryStore.emptyCart
    exact lookupAssoc_setAssoc_ne _ _ _ _ hvu
  · intro rs rs' ha
    obtain ⟨bytes, hdata, -, -, -⟩ := redisAddItem_ok_shape ha
    rw [hdata]
    exact lookupAssoc_setAssoc_ne _ _ _ _ (getCartKey_injective hvu)
  · intro rs rs' he
    obtain ⟨hdata, -, -, -⟩ := redisEmptyCart_ok_shape he
    rw [hdata]
    exact lookupAssoc_setAssoc_ne _ _ _ _ (getCartKey_injective hvu)

/-- Witness for C9: adding to `"u1"`'s cart does not disturb `"v1"`'s entry. -/
theorem C9_witness :
    lookupAssoc (MemoryStore.addItem [("u1", ⟨"u1", []⟩)] "u1" "p1" 2) "v1" =
      lookupAssoc [("u1", ⟨"u1", []⟩)] "v1" ∧
    lookupAssoc (MemoryStore.emptyCart [("u1", ⟨"u1", []⟩)] "u1") "v1" =
      lookupAssoc [("u1", ⟨"u1", []⟩)] "v1" :=
  ⟨(C9_frame_effects "u1" "v1" "p1" 2 [("u1", ⟨"u1", []⟩)] (by decide) []).1,
    (C9_frame_effects "u1" "v1" "p1" 2 [("u1", ⟨"u1", []⟩)] (by decide) []).2.1⟩

/-- C10: `getCart` is read-only on both backends — for every store state and
every userId, the state after the call is the state before it (whether or not
a record for the user exists), and in particular querying an absent user does
not create or persist a record for that user. -/
theorem C10_getCart_readonly (s : MemStore) (u : String) (rs : RedisState) :
    (MemoryStore.getCart s u).2 = s ∧
    (RedisStore.getCart rs u).2 = rs ∧
    (lookupAssoc s u = none → lookupAssoc ((MemoryStore.getCart s u).2) u = none) ∧
    (lookupAssoc rs.data (RedisStore.getCartKey u) = none →
      lookupAssoc ((RedisStore.getCart rs u).2).data (RedisStore.getCartKey u) = none) := by
  refine ⟨memGetCart_snd s u, redisGetCart_state rs u, ?_, ?_⟩
  · intro hs
    rw [memGetCart_snd]
    exact hs
  · intro hrd
    rw [redisGetCart_state]
    exact hrd

/-- Witness for C10: reading user `"u1"`'s existing cart leaves both stores
exactly as they were, and querying the never-seen `"ghost"` on empty stores
leaves them untouched and record-free. -/
theorem C10_witness :
    (MemoryStore.getCart [("u1", ⟨"u1", [⟨"p1", 2⟩]⟩)] "u1").2 =
      [("u1", ⟨"u1", [⟨"p1", 2⟩]⟩)] ∧
    (RedisStore.getCart ⟨[("cart:u1", serializeCart ⟨"u1", [⟨"p1", 2⟩]⟩)], true,
        "connection closed", "PONG"⟩ "u1").2 =
      ⟨[("cart:u1", serializeCart ⟨"u1", [⟨"p1", 2⟩]⟩)], true,
        "connection closed", "PONG"⟩ ∧
    lookupAssoc ((MemoryStore.getCart [] "ghost").2) "ghost" = none ∧
    lookupAssoc ((RedisStore.getCart ⟨[], true, "connection closed", "PONG"⟩
      "ghost").2).data (RedisStore.getCartKey "ghost") = none :=
  ⟨(C10_getCart_readonly [("u1", ⟨"u1", [⟨"p1", 2⟩]⟩)] "u1"
      ⟨[("cart:u1", serializeCart ⟨"u1", [⟨"p1", 2⟩]⟩)], true,
        "connection closed", "PONG"⟩).1,
    (C10_getCart_readonly [("u1", ⟨"u1", [⟨"p1", 2⟩]⟩)] "u1"
      ⟨[("cart:u1", serializeCart ⟨"u1", [⟨"p1", 2⟩]⟩)], true,
        "connection closed", "PONG"⟩).2.1,
    (C10_getCart_readonly [] "ghost"
      ⟨[], true, "connection closed", "PONG"⟩).2.2.1 rfl,
    (C10_getCart_readonly [] "ghost"
      ⟨[], true, "connection closed", "PONG"⟩).2.2.2 rfl⟩

/-- Witness for C7 (amended) at the concrete malformed byte sequence `[0x0A]`. -/
theorem C7_witness :
    RedisStore.getCart ⟨[("cart:u1", [0x0A])], true, "Connection is closed.", "PONG"⟩
        "u1" =
      (.error ("Can't access cart storage: " ++ protoDecodeFailureMsg [0x0A]),
        ⟨[("cart:u1", [0x0A])], true, "Connection is closed.", "PONG"⟩) ∧
    (∀ c, (RedisStore.getCart
      ⟨[("cart:u1", [0x0A])], true, "Connection is closed.", "PONG"⟩ "u1").1 ≠ .ok c) ∧
    (∀ rs2 : RedisState, rs2.reachable = false →
      RedisStore.getCart rs2 "u1" =
        (.error ("Can't access cart storage: " ++ rs2.connMsg), rs2)) :=
  C7_malformed_bytes_fail_not_coerced
    ⟨[("cart:u1", [0x0A])], true, "Connection is closed.", "PONG"⟩ "u1" [0x0A]
    rfl (by decide) deserializeCart_single_0A
